import Mathlib

/-
Formal model of the tempo-synchronized loop recorder of the drum_machine
repository (the Recorder component together with the hit-capture part of the
Sampler component).

Modelling conventions, fixed once for the whole file:

* JavaScript numbers are modelled as rationals; Date.now() is a
  monotone model clock (field now of RState below).
* setTimeout / setInterval are modelled by an explicit timer queue.  Each
  timer carries the id returned by the scheduling call, its absolute fire
  time, and a kind that identifies the callback together with the values the
  callback closes over (loop counters, captured durations).  An interval
  reschedules itself, keeping its id, exactly as a JS interval keeps its id
  until clearInterval.
* The event loop is deterministic: among due timers the one with the
  earliest fire time fires first, ties broken by the smaller id (creation
  order), and timers due at an instant fire before a user command issued at
  that same instant.
* React state updates (setX) and ref writes are modelled as synchronous
  record updates.  On every code path exercised below this agrees with the
  stale-closure behaviour of the real component: the one guard where the
  distinction could matter (metronomeEnabled and not isCountingIn inside
  startActualRecording) evaluates identically under both semantics, because
  the count-in completion callback sets isCountingIn to false immediately
  before calling startActualRecording.
* The audio context is assumed initialized and every pad has a sample
  bound, so playAudio always reaches its recording branch; the purely
  visual playingPads highlight timer of the Sampler is outside the
  specified core and is not modelled.
-/

namespace DrumMachine

/-- One captured pad hit: source type RecordedHit with fields padId and
timestamp (milliseconds from the start of the recording window). -/
structure RecordedHit where
  padId : ℕ
  timestamp : ℚ
deriving DecidableEq

/-- A completed recording: source type Recording with fields hits, bars,
bpm and duration. -/
structure Recording where
  hits : List RecordedHit
  bars : ℕ
  bpm : ℕ
  duration : ℚ
deriving DecidableEq

/-- Source function calculateDuration (Recorder): beats = bars * 4;
(beats / bpm) * 60 * 1000. -/
def calculateDuration (selectedBars selectedBpm : ℚ) : ℚ :=
  (selectedBars * 4 / selectedBpm) * 60 * 1000

/-- Executable minimum on rationals (Math.min of JS). -/
def qmin (a b : ℚ) : ℚ := if a ≤ b then a else b

/-- Executable maximum on rationals (Math.max of JS). -/
def qmax (a b : ℚ) : ℚ := if a ≤ b then b else a

/-- Source expression Math.min(elapsed / duration, 1) used by both the
recording and the playback position-update intervals. -/
def positionOf (elapsed total : ℚ) : ℚ :=
  qmin (elapsed / total) 1

/-- Source function getCurrentBarAndBeat (Recorder): totalBeats = bars * 4;
currentBeat = floor(position * totalBeats); bar = floor(currentBeat / 4) + 1;
beat = currentBeat % 4 + 1.  The JS % on the non-negative currentBeat agrees
with Int.emod. -/
def getCurrentBarAndBeat (bars : ℕ) (position : ℚ) : ℤ × ℤ :=
  let totalBeats : ℚ := (bars : ℚ) * 4
  let currentBeat : ℤ := ⌊position * totalBeats⌋
  (⌊(currentBeat : ℚ) / 4⌋ + 1, currentBeat % 4 + 1)

/-- Modelled from the spec (for comparison with the source definitions):
clamp(x, 0, 1). -/
def clamp01 (x : ℚ) : ℚ := qmin (qmax x 0) 1

/-- Modelled from the spec (for comparison with the source definitions):
position(elapsedMs, totalMs, bars) = (fraction, bar, beat) with
fraction = clamp(elapsedMs/totalMs, 0, 1), beatIndex = floor(fraction*bars*4),
bar = floor(beatIndex/4)+1, beat = (beatIndex mod 4)+1. -/
def specTimelinePosition (elapsedMs totalMs : ℚ) (bars : ℕ) : ℚ × ℤ × ℤ :=
  let fraction := clamp01 (elapsedMs / totalMs)
  let beatIndex : ℤ := ⌊fraction * ((bars : ℚ) * 4)⌋
  (fraction, ⌊(beatIndex : ℚ) / 4⌋ + 1, beatIndex % 4 + 1)

/-- The pending callbacks of the component, one constructor per distinct
callback in the source, carrying the values the callback closes over:

* metronomeTick: the setInterval body of startMetronome, closing over the
  mutable beatCount and the captured beatDuration;
* countInBarAdvance: the barInterval body of handleRecord, closing over the
  mutable currentBar and the captured countInBars and barDuration;
* countInComplete: the countInTimeoutRef setTimeout body of handleRecord,
  closing over the barInterval id it clears;
* recordingPosUpdate: the recordingIntervalRef setInterval body of
  startActualRecording, closing over the captured duration;
* recordingAutoStop: the anonymous auto-stop setTimeout body of
  startActualRecording (its id is stored nowhere in the source);
* hitTrigger: a per-hit setTimeout body of startPlayback;
* playbackPosUpdate: the playbackIntervalRef setInterval body of
  startPlayback, closing over the captured recording.duration;
* loopRestart: the anonymous 50 ms setTimeout body of the loop branch of
  playbackPosUpdate (its id is stored nowhere in the source). -/
inductive TimerKind where
  | metronomeTick (beatCount : ℕ) (beatDuration : ℚ)
  | countInBarAdvance (currentBar countInBarsCaptured : ℕ) (barDuration : ℚ)
  | countInComplete (barIntervalId : ℕ)
  | recordingPosUpdate (duration : ℚ)
  | recordingAutoStop
  | hitTrigger (padId : ℕ)
  | playbackPosUpdate (duration : ℚ)
  | loopRestart
deriving DecidableEq

/-- A scheduled timer: its JS id, absolute fire time, and callback. -/
structure Timer where
  id : ℕ
  fireAt : ℚ
  kind : TimerKind
deriving DecidableEq

/-- The combined state of the Recorder component, the hit-capture slice of
the Sampler component, the model clock, the timer queue, and the two
observation logs (pad triggers and metronome clicks). -/
structure RState where
  now : ℚ
  nextId : ℕ
  timers : List Timer
  isRecording : Bool
  recordedHits : List RecordedHit
  samplerRecStart : ℚ
  bpm : ℕ
  bars : ℕ
  metronomeEnabled : Bool
  countInBars : ℕ
  recording : Option Recording
  isPlaying : Bool
  playbackPosition : ℚ
  recordingPosition : ℚ
  isCountingIn : Bool
  countInBar : ℕ
  recStart : ℚ
  playStart : ℚ
  scheduledHits : List ℕ
  recordingIntervalId : Option ℕ
  metronomeIntervalId : Option ℕ
  countInTimeoutId : Option ℕ
  playbackIntervalId : Option ℕ
  played : List (ℚ × ℕ)
  clicks : List (ℚ × Bool)
deriving DecidableEq

/-- Model of window.setTimeout / window.setInterval: appends a timer due
delay milliseconds from now and returns its fresh id. -/
def schedule (s : RState) (delay : ℚ) (kind : TimerKind) : RState × ℕ :=
  ({ s with
      timers := s.timers ++ [{ id := s.nextId, fireAt := s.now + delay, kind := kind }],
      nextId := s.nextId + 1 },
    s.nextId)

/-- Model of clearTimeout / clearInterval on a concrete id. -/
def clearTimer (s : RState) (i : ℕ) : RState :=
  { s with timers := s.timers.filter (fun tm => decide (tm.id ≠ i)) }

/-- Model of the null-guarded clearTimeout / clearInterval pattern on a ref. -/
def clearTimerOpt (s : RState) : Option ℕ → RState
  | none => s
  | some i => clearTimer s i

/-- Source function playMetronomeClick (Recorder): emits a click when the
audio context exists and the metronome is enabled. -/
def playMetronomeClick (s : RState) (isDownbeat : Bool) : RState :=
  if s.metronomeEnabled then { s with clicks := s.clicks ++ [(s.now, isDownbeat)] }
  else s

/-- Source function stopMetronome (Recorder). -/
def stopMetronome (s : RState) : RState :=
  match s.metronomeIntervalId with
  | none => s
  | some i => { clearTimer s i with metronomeIntervalId := none }

/-- Source function startMetronome (Recorder): plays an immediate downbeat
click and schedules a recurring click every beatDuration milliseconds.  It
neither checks nor clears an already running metronome interval; the ref is
simply overwritten. -/
def startMetronome (s : RState) : RState :=
  if s.metronomeEnabled then
    let beatDuration : ℚ := (60 / (s.bpm : ℚ)) * 1000
    let s₁ := playMetronomeClick s true
    let p := schedule s₁ beatDuration (.metronomeTick 0 beatDuration)
    { p.1 with metronomeIntervalId := some p.2 }
  else s

/-- Source function playAudio (Sampler): plays the pad, and appends a
RecordedHit with timestamp Date.now() - recordingStartTimeRef.current when
isRecording is set. -/
def playAudio (s : RState) (padId : ℕ) : RState :=
  let s₁ := { s with played := s.played ++ [(s.now, padId)] }
  if s₁.isRecording then
    { s₁ with recordedHits :=
        s₁.recordedHits ++ [{ padId := padId, timestamp := s₁.now - s₁.samplerRecStart }] }
  else s₁

/-- Source function handleRecordingChange (Sampler): flips isRecording; on
the start edge it clears the hit log and anchors the Sampler's
recordingStartTimeRef. -/
def handleRecordingChange (s : RState) (recording : Bool) : RState :=
  if recording then
    { s with isRecording := true, recordedHits := [], samplerRecStart := s.now }
  else
    { s with isRecording := false }

/-- Source function startActualRecording (Recorder): begins capture, anchors
the Recorder's recordingStartTimeRef, conditionally starts the metronome,
starts the 16 ms recording position interval, and schedules the anonymous
auto-stop timeout whose id is stored nowhere. -/
def startActualRecording (s : RState) : RState :=
  let s₁ := handleRecordingChange s true
  let s₂ := { s₁ with recStart := s₁.now }
  let s₃ := if s₂.metronomeEnabled && !s₂.isCountingIn then startMetronome s₂ else s₂
  let dur := calculateDuration (s₃.bars : ℚ) (s₃.bpm : ℚ)
  let p := schedule s₃ 16 (.recordingPosUpdate dur)
  let s₄ := { p.1 with recordingIntervalId := some p.2 }
  (schedule s₄ dur .recordingAutoStop).1

/-- Recursive helper for the hit-scheduling forEach of startPlayback: each
hit gets a setTimeout at its timestamp (clamped at 0 as JS clamps negative
delays) and its id is added to scheduledHitsRef. -/
def scheduleHitList : RState → List RecordedHit → RState
  | s, [] => s
  | s, h :: rest =>
    let p := schedule s (qmax 0 h.timestamp) (.hitTrigger h.padId)
    scheduleHitList { p.1 with scheduledHits := p.1.scheduledHits ++ [p.2] } rest

/-- Source function startPlayback (Recorder): rejected as a no-op when the
recording is absent or has no hits; otherwise anchors
playbackStartTimeRef to now, clears scheduledHitsRef, conditionally starts
the metronome, schedules one timeout per hit, and starts the 16 ms playback
position interval. -/
def startPlayback (s : RState) : RState :=
  match s.recording with
  | none => s
  | some rec =>
    if rec.hits.length = 0 then s
    else
      let s₁ := { s with isPlaying := true, playStart := s.now, scheduledHits := [] }
      let s₂ := if s₁.metronomeEnabled then startMetronome s₁ else s₁
      let s₃ := scheduleHitList s₂ rec.hits
      let p := schedule s₃ 16 (.playbackPosUpdate rec.duration)
      { p.1 with playbackIntervalId := some p.2 }

/-- Source function stopPlayback (Recorder): clears the playing flag,
resets the displayed position, stops the metronome, clears the playback
position interval, and cancels every timeout id held in scheduledHitsRef. -/
def stopPlayback (s : RState) : RState :=
  let s₁ := { s with isPlaying := false, playbackPosition := 0 }
  let s₂ := stopMetronome s₁
  let s₃ := { clearTimerOpt s₂ s₂.playbackIntervalId with playbackIntervalId := none }
  { s₃ with
      timers := s₃.timers.filter (fun tm => decide (tm.id ∉ s₃.scheduledHits)),
      scheduledHits := [] }

/-- Source function handlePlayStop (Recorder). -/
def handlePlayStop (s : RState) : RState :=
  if s.isPlaying then stopPlayback s else startPlayback s

/-- Source function handleRecord (Recorder).  Note the three branches of
the source: cancel count-in, stop recording (which materializes the
Recording), and start recording with or without count-in.  There is no
guard on isPlaying anywhere in this function. -/
def handleRecord (s : RState) : RState :=
  if s.isRecording || s.isCountingIn then
    if s.isCountingIn then
      let s₁ := { s with isCountingIn := false }
      let s₂ := stopMetronome s₁
      { clearTimerOpt s₂ s₂.countInTimeoutId with countInTimeoutId := none }
    else
      let s₁ := handleRecordingChange s false
      let s₂ := stopMetronome s₁
      let s₃ := { s₂ with recordingPosition := 0 }
      let s₄ := { clearTimerOpt s₃ s₃.recordingIntervalId with recordingIntervalId := none }
      let newRecording : Recording :=
        { hits := s₄.recordedHits, bars := s₄.bars, bpm := s₄.bpm,
          duration := calculateDuration (s₄.bars : ℚ) (s₄.bpm : ℚ) }
      { s₄ with recording := some newRecording }
  else
    let s₁ := { s with recording := none, isPlaying := false, recordingPosition := 0 }
    if s₁.countInBars > 0 then
      let s₂ := { s₁ with isCountingIn := true, countInBar := 1 }
      let s₃ := if s₂.metronomeEnabled then startMetronome s₂ else s₂
      let barDuration : ℚ := (60 / (s₃.bpm : ℚ)) * 4 * 1000
      let pb := schedule s₃ barDuration
        (.countInBarAdvance 1 s₃.countInBars barDuration)
      let countInDuration := calculateDuration (pb.1.countInBars : ℚ) (pb.1.bpm : ℚ)
      let pc := schedule pb.1 countInDuration (.countInComplete pb.2)
      { pc.1 with countInTimeoutId := some pc.2 }
    else
      startActualRecording s₁

/-- Source function handleClear (Recorder): stops playback and metronome,
discards the Recording, resets count-in state and the count-in timeout, and
clears the recording flag.  It cancels neither the bar-advance interval nor
the anonymous auto-stop timeout, for which it holds no handle. -/
def handleClear (s : RState) : RState :=
  let s₁ := stopPlayback s
  let s₂ := stopMetronome s₁
  let s₃ := { s₂ with recording := none, recordingPosition := 0, isCountingIn := false }
  let s₄ := { clearTimerOpt s₃ s₃.countInTimeoutId with countInTimeoutId := none }
  handleRecordingChange s₄ false

/-- Firing one due timer: the timer leaves the queue (an interval re-adds
itself with the same id and its updated closure state, as a JS interval
does), then its callback body from the source runs. -/
def fireTimer (s : RState) (tm : Timer) : RState :=
  let base := { s with timers := s.timers.erase tm }
  match tm.kind with
  | .metronomeTick beatCount beatDuration =>
    let tm' : Timer :=
      { tm with
        fireAt := tm.fireAt + beatDuration,
        kind := .metronomeTick (beatCount + 1) beatDuration }
    let s₁ := { base with timers := base.timers ++ [tm'] }
    playMetronomeClick s₁ ((beatCount + 1) % 4 == 0)
  | .countInBarAdvance currentBar countInBarsCaptured barDuration =>
    if currentBar + 1 ≤ countInBarsCaptured then
      let tm' : Timer :=
        { tm with
          fireAt := tm.fireAt + barDuration,
          kind := .countInBarAdvance (currentBar + 1) countInBarsCaptured barDuration }
      { base with timers := base.timers ++ [tm'], countInBar := currentBar + 1 }
    else base
  | .countInComplete barIntervalId =>
    let s₁ := clearTimer base barIntervalId
    let s₂ := { s₁ with isCountingIn := false }
    startActualRecording s₂
  | .recordingPosUpdate duration =>
    let tm' : Timer := { tm with fireAt := tm.fireAt + 16 }
    let s₁ := { base with timers := base.timers ++ [tm'] }
    { s₁ with recordingPosition := positionOf (s₁.now - s₁.recStart) duration }
  | .recordingAutoStop =>
    let s₁ := handleRecordingChange base false
    let s₂ := stopMetronome s₁
    let s₃ := { s₂ with recordingPosition := 0 }
    { clearTimerOpt s₃ s₃.recordingIntervalId with recordingIntervalId := none }
  | .hitTrigger padId =>
    let s₁ := playAudio base padId
    { s₁ with scheduledHits := s₁.scheduledHits.filter (fun i => decide (i ≠ tm.id)) }
  | .playbackPosUpdate duration =>
    let tm' : Timer := { tm with fireAt := tm.fireAt + 16 }
    let s₁ := { base with timers := base.timers ++ [tm'] }
    let pos := positionOf (s₁.now - s₁.playStart) duration
    let s₂ := { s₁ with playbackPosition := pos }
    if 1 ≤ pos then
      let s₃ := stopPlayback s₂
      (schedule s₃ 50 .loopRestart).1
    else s₂
  | .loopRestart =>
    startPlayback base

/-- Scheduling order of the JS event loop on due timers: earliest fire time
first, ties by smaller (earlier created) id. -/
def timerBefore (a b : Timer) : Bool :=
  if a.fireAt < b.fireAt then true
  else if a.fireAt = b.fireAt then decide (a.id ≤ b.id)
  else false

/-- The next timer the event loop would run, if any. -/
def pickNext : List Timer → Option Timer
  | [] => none
  | tm :: rest =>
    match pickNext rest with
    | none => some tm
    | some best => if timerBefore tm best then some tm else some best

/-- Runs every timer due no later than tEnd, in event-loop order, then
advances the clock to tEnd.  Returns none when the fuel does not cover all
due firings, so a some result is a faithfully completed run. -/
def stepTimers : ℕ → ℚ → RState → Option RState
  | 0, tEnd, s =>
    match pickNext s.timers with
    | none => some { s with now := qmax s.now tEnd }
    | some tm =>
      if tm.fireAt ≤ tEnd then none
      else some { s with now := qmax s.now tEnd }
  | fuel + 1, tEnd, s =>
    match pickNext s.timers with
    | none => some { s with now := qmax s.now tEnd }
    | some tm =>
      if tm.fireAt ≤ tEnd then
        stepTimers fuel tEnd (fireTimer { s with now := qmax s.now tm.fireAt } tm)
      else some { s with now := qmax s.now tEnd }

/-- A user command: the three transport buttons, a pad hit (click or key),
or a pure wait that only lets scheduled timers run. -/
inductive Cmd where
  | record
  | playStop
  | clear
  | hit (padId : ℕ)
  | wait
deriving DecidableEq

/-- Dispatch of a user command to its source handler. -/
def applyCmd : Cmd → RState → RState
  | .record, s => handleRecord s
  | .playStop, s => handlePlayStop s
  | .clear, s => handleClear s
  | .hit padId, s => playAudio s padId
  | .wait, s => s

/-- Runs a timed script of user commands: before each command at time t all
timers due no later than t fire, then the command runs at t. -/
def runScenario (fuel : ℕ) : List (ℚ × Cmd) → RState → Option RState
  | [], s => some s
  | (t, c) :: rest, s =>
    match stepTimers fuel t s with
    | none => none
    | some s' => runScenario fuel rest (applyCmd c s')

/-- The freshly mounted component with a given configuration (bpm, bars,
metronome checkbox, count-in selector). -/
def initState (bpm bars : ℕ) (metronomeEnabled : Bool) (countInBars : ℕ) : RState :=
  { now := 0, nextId := 0, timers := [], isRecording := false, recordedHits := [],
    samplerRecStart := 0, bpm := bpm, bars := bars,
    metronomeEnabled := metronomeEnabled, countInBars := countInBars,
    recording := none, isPlaying := false, playbackPosition := 0,
    recordingPosition := 0, isCountingIn := false, countInBar := 0,
    recStart := 0, playStart := 0, scheduledHits := [],
    recordingIntervalId := none, metronomeIntervalId := none,
    countInTimeoutId := none, playbackIntervalId := none,
    played := [], clicks := [] }

/-- Timer-kind discriminators used by the claims about which timers remain
pending on the various stop paths. -/
def TimerKind.isMetroTick : TimerKind → Bool
  | .metronomeTick _ _ => true
  | _ => false

def TimerKind.isBarAdvance : TimerKind → Bool
  | .countInBarAdvance _ _ _ => true
  | _ => false

def TimerKind.isAutoStop : TimerKind → Bool
  | .recordingAutoStop => true
  | _ => false

def TimerKind.isHit : TimerKind → Bool
  | .hitTrigger _ => true
  | _ => false

def TimerKind.isLoopRestartKind : TimerKind → Bool
  | .loopRestart => true
  | _ => false

def TimerKind.isPlaybackPoll : TimerKind → Bool
  | .playbackPosUpdate _ => true
  | _ => false

/-- Count of pending timers of a given kind class. -/
def countKind (s : RState) (p : TimerKind → Bool) : ℕ :=
  (s.timers.filter (fun tm => p tm.kind)).length

/-- Scenario for the playback loop timing claims: bpm 200, bars 8 (so
durationMs = 9600), no metronome, no count-in; record from t=0 with hits at
offsets 0 and 500, stop at t=1000, play from t=2000, and let the loop run
across two restarts. -/
def loopActs : List (ℚ × Cmd) :=
  [(0, .record), (0, .hit 0), (500, .hit 1), (1000, .record),
   (2000, .playStop), (21350, .wait)]

def loopRun : Option RState := runScenario 2000 loopActs (initState 200 8 false 0)

/-- Scenario for the stale auto-stop claim: record from t=0 (bpm 200,
bars 1, so the recording window is 1200 ms), stop manually at t=100,
record again at t=200 (this second window should last until t=1400). -/
def staleActsShort : List (ℚ × Cmd) :=
  [(0, .record), (100, .record)]

def staleActs : List (ℚ × Cmd) :=
  [(0, .record), (100, .record), (200, .record), (1205, .wait)]

def staleRunShort : Option RState := runScenario 600 staleActsShort (initState 200 1 false 0)

def staleRun : Option RState := runScenario 600 staleActs (initState 200 1 false 0)

/-- Scenario for the un-cancelled 50 ms loop-restart claim: record a
two-hit 1200 ms recording (stopped manually at t=200), play it from
t=1300, and press clear at t=2510, inside the settling delay that follows
the internal loop stop at t=2500. -/
def clearSettleActs : List (ℚ × Cmd) :=
  [(0, .record), (0, .hit 0), (100, .hit 1), (200, .record),
   (1300, .playStop), (2510, .clear)]

def clearSettleRun : Option RState := runScenario 1000 clearSettleActs (initState 200 1 false 0)

/-- Scenario for the double-metronome claim: metronome enabled, one
count-in bar at bpm 120 (bar = 2000 ms); record at t=0, count-in completes
at t=2000 and hands off into actual recording. -/
def handoffActs : List (ℚ × Cmd) := [(0, .record), (2100, .wait)]

def handoffRun : Option RState := runScenario 200 handoffActs (initState 120 8 true 1)

/-- Same configuration, but the recording is stopped at t=2100; the orphaned
first metronome interval remains and keeps clicking while idle. -/
def handoffStopActs : List (ℚ × Cmd) := [(0, .record), (2100, .record), (3600, .wait)]

def handoffStopRun : Option RState := runScenario 200 handoffStopActs (initState 120 8 true 1)

/-- Scenario for the count-in cancel claim: metronome enabled, two count-in
bars at bpm 120 (bar = 2000 ms, count-in = 4000 ms); record at t=0, stop
(cancel) at t=1000. -/
def cancelActs : List (ℚ × Cmd) := [(0, .record), (1000, .record), (1100, .wait)]

def cancelRun : Option RState := runScenario 200 cancelActs (initState 120 8 true 2)

def cancelLateActs : List (ℚ × Cmd) := [(0, .record), (1000, .record), (2100, .wait)]

def cancelLateRun : Option RState := runScenario 200 cancelLateActs (initState 120 8 true 2)

/-- Scenario for the record-while-playing claim: record a hit at offset 100
(bpm 200, bars 8), stop at t=500, play at t=1000, and issue a record
command at t=1050 while the transport is playing. -/
def rwpPrefixActs : List (ℚ × Cmd) :=
  [(0, .record), (100, .hit 2), (500, .record), (1000, .playStop)]

def rwpActs : List (ℚ × Cmd) :=
  [(0, .record), (100, .hit 2), (500, .record), (1000, .playStop), (1050, .record)]

def rwpPrefixRun : Option RState := runScenario 200 rwpPrefixActs (initState 200 8 false 0)

def rwpRun : Option RState := runScenario 200 rwpActs (initState 200 8 false 0)


/-- The state produced by the stop-recording branch of handleRecord, before
the Recording object is materialized; named so the invariant proof can state
frame facts about it.  Definitionally equal to the branch body. -/
def recordStopState (s : RState) : RState :=
  let s₁ := handleRecordingChange s false
  let s₂ := stopMetronome s₁
  let s₃ := { s₂ with recordingPosition := 0 }
  { clearTimerOpt s₃ s₃.recordingIntervalId with recordingIntervalId := none }

/-- The Recording object materialized by the stop-recording branch of
handleRecord. -/
def recordStopRecording (s : RState) : Recording :=
  { hits := (recordStopState s).recordedHits,
    bars := (recordStopState s).bars,
    bpm := (recordStopState s).bpm,
    duration := calculateDuration (((recordStopState s).bars : ℚ))
      (((recordStopState s).bpm : ℚ)) }

/-- The state produced by the count-in branch of handleRecord; named so the
invariant proof can state frame facts about it.  Definitionally equal to
the branch body. -/
def countInState (s : RState) : RState :=
  let s₁ := { s with recording := none, isPlaying := false, recordingPosition := 0 }
  let s₂ := { s₁ with isCountingIn := true, countInBar := 1 }
  let s₃ := if s₂.metronomeEnabled then startMetronome s₂ else s₂
  let barDuration : ℚ := (60 / (s₃.bpm : ℚ)) * 4 * 1000
  let pb := schedule s₃ barDuration
    (.countInBarAdvance 1 s₃.countInBars barDuration)
  let countInDuration := calculateDuration ((pb.1.countInBars : ℚ)) ((pb.1.bpm : ℚ))
  let pc := schedule pb.1 countInDuration (.countInComplete pb.2)
  { pc.1 with countInTimeoutId := some pc.2 }

/-- Scenario for the stop-playback claim: record two hits (offsets 100 and
600) at bpm 200 with the metronome on, stop at t=1000, start playback at
t=2000, and observe the playing state at t=2500 with the second hit still
pending. -/
def stopWitnessActs : List (ℚ × Cmd) :=
  [(0, .record), (100, .hit 2), (600, .hit 5), (1000, .record),
    (2000, .playStop), (2500, .wait)]

def stopWitnessRun : Option RState :=
  runScenario 600 stopWitnessActs (initState 200 8 true 0)

def stopWitnessState : RState := stopWitnessRun.getD (initState 200 8 true 0)

/-- Scenario for the hit-window claim: record one hit at offset 100 inside
a 16000 ms window (bpm 120, 8 bars) and stop manually at t=500. -/
def c7Acts : List (ℚ × Cmd) := [(0, .record), (100, .hit 3), (500, .record)]

def c7Run : Option RState := runScenario 200 c7Acts (initState 120 8 false 0)

def c7State : RState := c7Run.getD (initState 120 8 false 0)

def c7Rec : Recording :=
  c7State.recording.getD { hits := [], bars := 0, bpm := 0, duration := 0 }

/-
Membership lemmas: every operation of the model only removes timers or adds
timers of known kinds, and only the two hit paths touch the played log.
-/

theorem playMetronomeClick_timers (s : RState) (b : Bool) :
    (playMetronomeClick s b).timers = s.timers := by
  simp only [playMetronomeClick]
  split <;> rfl

theorem playMetronomeClick_played (s : RState) (b : Bool) :
    (playMetronomeClick s b).played = s.played := by
  simp only [playMetronomeClick]
  split <;> rfl

theorem mem_clearTimer {s : RState} {i : ℕ} {tm : Timer} :
    tm ∈ (clearTimer s i).timers ↔ tm ∈ s.timers ∧ tm.id ≠ i := by
  simp [clearTimer, List.mem_filter]

theorem clearTimer_played (s : RState) (i : ℕ) : (clearTimer s i).played = s.played := rfl

theorem clearTimerOpt_played (s : RState) (o : Option ℕ) :
    (clearTimerOpt s o).played = s.played := by
  cases o <;> rfl

theorem mem_clearTimerOpt {s : RState} {o : Option ℕ} {tm : Timer}
    (h : tm ∈ (clearTimerOpt s o).timers) : tm ∈ s.timers := by
  cases o with
  | none => exact h
  | some i => exact (mem_clearTimer.mp h).1

theorem mem_stopMetronome {s : RState} {tm : Timer}
    (h : tm ∈ (stopMetronome s).timers) : tm ∈ s.timers := by
  unfold stopMetronome at h
  cases hm : s.metronomeIntervalId with
  | none => rw [hm] at h; exact h
  | some i => rw [hm] at h; exact (mem_clearTimer.mp h).1

theorem stopMetronome_played (s : RState) : (stopMetronome s).played = s.played := by
  unfold stopMetronome
  cases s.metronomeIntervalId <;> rfl

theorem mem_startMetronome {s : RState} {tm : Timer}
    (h : tm ∈ (startMetronome s).timers) :
    tm ∈ s.timers ∨ ∃ bd, tm.kind = TimerKind.metronomeTick 0 bd := by
  unfold startMetronome at h
  split at h
  · simp only [schedule, playMetronomeClick_timers] at h
    rcases List.mem_append.mp h with h | h
    · exact Or.inl h
    · right
      simp only [List.mem_singleton] at h
      exact ⟨_, by rw [h]⟩
  · exact Or.inl h

theorem startMetronome_played (s : RState) : (startMetronome s).played = s.played := by
  unfold startMetronome
  split
  · simp [schedule, playMetronomeClick_played]
  · rfl

theorem playAudio_timers (s : RState) (p : ℕ) : (playAudio s p).timers = s.timers := by
  simp only [playAudio]
  split <;> rfl

theorem handleRecordingChange_timers (s : RState) (b : Bool) :
    (handleRecordingChange s b).timers = s.timers := by
  simp only [handleRecordingChange]
  split <;> rfl

theorem handleRecordingChange_played (s : RState) (b : Bool) :
    (handleRecordingChange s b).played = s.played := by
  simp only [handleRecordingChange]
  split <;> rfl

theorem mem_startActualRecording {s : RState} {tm : Timer}
    (h : tm ∈ (startActualRecording s).timers) :
    tm ∈ s.timers ∨ (∃ bd, tm.kind = TimerKind.metronomeTick 0 bd) ∨
      (∃ d, tm.kind = TimerKind.recordingPosUpdate d) ∨
      tm.kind = TimerKind.recordingAutoStop := by
  unfold startActualRecording at h
  simp only [schedule] at h
  dsimp only at h
  rcases List.mem_append.mp h with h | h
  · rcases List.mem_append.mp h with h | h
    · split at h
      · rcases mem_startMetronome h with h | hk
        · dsimp only at h
          rw [handleRecordingChange_timers] at h
          exact Or.inl h
        · exact Or.inr (Or.inl hk)
      · dsimp only at h
        rw [handleRecordingChange_timers] at h
        exact Or.inl h
    · simp only [List.mem_singleton] at h
      exact Or.inr (Or.inr (Or.inl ⟨_, by rw [h]⟩))
  · simp only [List.mem_singleton] at h
    exact Or.inr (Or.inr (Or.inr (by rw [h])))

theorem startActualRecording_played (s : RState) :
    (startActualRecording s).played = s.played := by
  unfold startActualRecording
  simp only [schedule]
  dsimp only
  split
  · rw [startMetronome_played, handleRecordingChange_played]
  · rw [handleRecordingChange_played]

theorem mem_scheduleHitList {hits : List RecordedHit} :
    ∀ {s : RState} {tm : Timer}, tm ∈ (scheduleHitList s hits).timers →
      tm ∈ s.timers ∨ ∃ p, tm.kind = TimerKind.hitTrigger p := by
  induction hits with
  | nil => intro s tm h; exact Or.inl h
  | cons hd tl ih =>
    intro s tm h
    rcases ih h with h | h
    · simp only [schedule] at h
      rcases List.mem_append.mp h with h | h
      · exact Or.inl h
      · simp only [List.mem_singleton] at h
        exact Or.inr ⟨_, by rw [h]⟩
    · exact Or.inr h

theorem scheduleHitList_played {hits : List RecordedHit} :
    ∀ {s : RState}, (scheduleHitList s hits).played = s.played := by
  induction hits with
  | nil => intro s; rfl
  | cons hd tl ih =>
    intro s
    rw [scheduleHitList, ih]
    rfl

theorem mem_startPlayback {s : RState} {tm : Timer}
    (h : tm ∈ (startPlayback s).timers) :
    tm ∈ s.timers ∨ (∃ bd, tm.kind = TimerKind.metronomeTick 0 bd) ∨
      (∃ p, tm.kind = TimerKind.hitTrigger p) ∨
      (∃ d, tm.kind = TimerKind.playbackPosUpdate d) := by
  unfold startPlayback at h
  split at h
  · exact Or.inl h
  · split at h
    · exact Or.inl h
    · simp only [schedule] at h
      rcases List.mem_append.mp h with h | h
      · rcases mem_scheduleHitList h with h | h
        · split at h
          · rcases mem_startMetronome h with h | h
            · exact Or.inl h
            · exact Or.inr (Or.inl h)
          · exact Or.inl h
        · exact Or.inr (Or.inr (Or.inl h))
      · simp only [List.mem_singleton] at h
        exact Or.inr (Or.inr (Or.inr ⟨_, by rw [h]⟩))

theorem startPlayback_played (s : RState) : (startPlayback s).played = s.played := by
  unfold startPlayback
  split
  · rfl
  · split
    · rfl
    · simp only [schedule]
      dsimp only
      rw [scheduleHitList_played]
      split
      · rw [startMetronome_played]
      · rfl

theorem mem_stopPlayback_iff {s : RState} {tm : Timer} :
    tm ∈ (stopPlayback s).timers ↔
      tm ∈ s.timers ∧ (∀ i, s.metronomeIntervalId = some i → tm.id ≠ i) ∧
        (∀ i, s.playbackIntervalId = some i → tm.id ≠ i) ∧
        tm.id ∉ s.scheduledHits := by
  cases hmi : s.metronomeIntervalId with
  | none =>
    cases hpi : s.playbackIntervalId with
    | none =>
      simp [stopPlayback, stopMetronome, clearTimerOpt, clearTimer, hmi, hpi,
        List.mem_filter]
    | some j =>
      simp [stopPlayback, stopMetronome, clearTimerOpt, clearTimer, hmi, hpi,
        List.mem_filter]
      tauto
  | some i =>
    cases hpi : s.playbackIntervalId with
    | none =>
      simp [stopPlayback, stopMetronome, clearTimerOpt, clearTimer, hmi, hpi,
        List.mem_filter]
      tauto
    | some j =>
      simp [stopPlayback, stopMetronome, clearTimerOpt, clearTimer, hmi, hpi,
        List.mem_filter]
      tauto

theorem mem_stopPlayback {s : RState} {tm : Timer}
    (h : tm ∈ (stopPlayback s).timers) : tm ∈ s.timers :=
  (mem_stopPlayback_iff.mp h).1

theorem stopPlayback_played (s : RState) : (stopPlayback s).played = s.played := by
  cases hmi : s.metronomeIntervalId with
  | none =>
    cases hpi : s.playbackIntervalId with
    | none => simp [stopPlayback, stopMetronome, clearTimerOpt, clearTimer, hmi, hpi]
    | some j => simp [stopPlayback, stopMetronome, clearTimerOpt, clearTimer, hmi, hpi]
  | some i =>
    cases hpi : s.playbackIntervalId with
    | none => simp [stopPlayback, stopMetronome, clearTimerOpt, clearTimer, hmi, hpi]
    | some j => simp [stopPlayback, stopMetronome, clearTimerOpt, clearTimer, hmi, hpi]

/-
Event-loop order lemmas.
-/

theorem timerBefore_le {a b : Timer} (h : timerBefore a b = true) :
    a.fireAt ≤ b.fireAt := by
  unfold timerBefore at h
  by_cases h1 : a.fireAt < b.fireAt
  · exact le_of_lt h1
  · rw [if_neg h1] at h
    by_cases h2 : a.fireAt = b.fireAt
    · exact le_of_eq h2
    · rw [if_neg h2] at h
      exact absurd h (by simp)

theorem timerBefore_false_le {a b : Timer} (h : timerBefore a b = false) :
    b.fireAt ≤ a.fireAt := by
  unfold timerBefore at h
  by_cases h1 : a.fireAt < b.fireAt
  · rw [if_pos h1] at h
    exact absurd h (by simp)
  · exact le_of_not_lt h1

theorem pickNext_mem : ∀ {l : List Timer} {tm : Timer}, pickNext l = some tm → tm ∈ l := by
  intro l
  induction l with
  | nil => intro tm h; simp [pickNext] at h
  | cons hd tl ih =>
    intro tm h
    simp only [pickNext] at h
    cases hp : pickNext tl with
    | none =>
      simp only [hp, Option.some.injEq] at h
      rw [← h]
      exact List.mem_cons_self hd tl
    | some best =>
      simp only [hp] at h
      split at h <;> simp only [Option.some.injEq] at h
      · rw [← h]
        exact List.mem_cons_self hd tl
      · rw [← h]
        exact List.mem_cons_of_mem hd (ih hp)

theorem pickNext_eq_none : ∀ {l : List Timer}, pickNext l = none → l = [] := by
  intro l h
  cases l with
  | nil => rfl
  | cons hd tl =>
    simp only [pickNext] at h
    cases hp : pickNext tl with
    | none => simp [hp] at h
    | some best =>
      simp only [hp] at h
      split at h <;> simp at h

theorem pickNext_min : ∀ {l : List Timer} {tm : Timer}, pickNext l = some tm →
    ∀ b ∈ l, tm.fireAt ≤ b.fireAt := by
  intro l
  induction l with
  | nil => intro tm h; simp [pickNext] at h
  | cons hd tl ih =>
    intro tm h b hb
    simp only [pickNext] at h
    cases hp : pickNext tl with
    | none =>
      simp only [hp, Option.some.injEq] at h
      rw [pickNext_eq_none hp] at hb
      simp only [List.mem_singleton] at hb
      rw [← h, hb]
    | some best =>
      simp only [hp] at h
      rcases List.mem_cons.mp hb with hb | hb
      · split at h <;> simp only [Option.some.injEq] at h
        · rw [← h, hb]
        · rename_i hf
          rw [← h, hb]
          exact timerBefore_false_le (Bool.of_not_eq_true hf)
      · split at h <;> simp only [Option.some.injEq] at h
        · rename_i ht
          rw [← h]
          exact le_trans (timerBefore_le ht) (ih hp b hb)
        · rw [← h]
          exact ih hp b hb

/-
After stopPlayback no pending timer can ever invoke the pad-trigger sink:
the property that no hit-trigger, no playback poll and no loop-restart
timer is pending is preserved by every timer firing, and firings preserve
the played log under it.
-/

def playFree (s : RState) : Prop :=
  ∀ tm ∈ s.timers, tm.kind.isHit = false ∧ tm.kind.isPlaybackPoll = false ∧
    TimerKind.isLoopRestartKind tm.kind = false

theorem playFree_of_sub {s s' : RState}
    (hsub : ∀ tm ∈ s'.timers, tm ∈ s.timers ∨
      (tm.kind.isHit = false ∧ tm.kind.isPlaybackPoll = false ∧
        TimerKind.isLoopRestartKind tm.kind = false))
    (h : playFree s) : playFree s' :=
  fun tm hm => (hsub tm hm).elim (h tm) id

theorem fireTimer_playFree {s : RState} {tm : Timer} (h : playFree s)
    (hm : tm ∈ s.timers) :
    playFree (fireTimer s tm) ∧ (fireTimer s tm).played = s.played := by
  have hk := h tm hm
  cases k : tm.kind with
  | hitTrigger p => rw [k] at hk; simp [TimerKind.isHit] at hk
  | playbackPosUpdate d => rw [k] at hk; simp [TimerKind.isPlaybackPoll] at hk
  | loopRestart => rw [k] at hk; simp [TimerKind.isLoopRestartKind] at hk
  | metronomeTick n bd =>
    constructor
    · refine playFree_of_sub (fun tm' hm' => ?_) h
      simp only [fireTimer, k, playMetronomeClick_timers] at hm'
      rcases List.mem_append.mp hm' with hm' | hm'
      · exact Or.inl (List.mem_of_mem_erase hm')
      · simp only [List.mem_singleton] at hm'
        right
        rw [hm']
        simp [TimerKind.isHit, TimerKind.isPlaybackPoll, TimerKind.isLoopRestartKind]
    · simp only [fireTimer, k, playMetronomeClick_played]
  | countInBarAdvance cb cib bd =>
    constructor
    · refine playFree_of_sub (fun tm' hm' => ?_) h
      simp only [fireTimer, k] at hm'
      split at hm'
      · rcases List.mem_append.mp hm' with hm' | hm'
        · exact Or.inl (List.mem_of_mem_erase hm')
        · simp only [List.mem_singleton] at hm'
          right
          rw [hm']
          simp [TimerKind.isHit, TimerKind.isPlaybackPoll, TimerKind.isLoopRestartKind]
      · exact Or.inl (List.mem_of_mem_erase hm')
    · simp only [fireTimer, k]
      split <;> rfl
  | countInComplete b =>
    constructor
    · refine playFree_of_sub (fun tm' hm' => ?_) h
      simp only [fireTimer, k] at hm'
      rcases mem_startActualRecording hm' with hm' | hk' | hk' | hk'
      · exact Or.inl (List.mem_of_mem_erase (mem_clearTimer.mp hm').1)
      · obtain ⟨bd, hk'⟩ := hk'
        right
        rw [hk']
        simp [TimerKind.isHit, TimerKind.isPlaybackPoll, TimerKind.isLoopRestartKind]
      · obtain ⟨d, hk'⟩ := hk'
        right
        rw [hk']
        simp [TimerKind.isHit, TimerKind.isPlaybackPoll, TimerKind.isLoopRestartKind]
      · right
        rw [hk']
        simp [TimerKind.isHit, TimerKind.isPlaybackPoll, TimerKind.isLoopRestartKind]
    · simp only [fireTimer, k]
      rw [startActualRecording_played]
      rfl
  | recordingPosUpdate d =>
    constructor
    · refine playFree_of_sub (fun tm' hm' => ?_) h
      simp only [fireTimer, k] at hm'
      rcases List.mem_append.mp hm' with hm' | hm'
      · exact Or.inl (List.mem_of_mem_erase hm')
      · simp only [List.mem_singleton] at hm'
        right
        rw [hm']
        simp [TimerKind.isHit, TimerKind.isPlaybackPoll, TimerKind.isLoopRestartKind, k]
    · simp only [fireTimer, k]
  | recordingAutoStop =>
    constructor
    · refine playFree_of_sub (fun tm' hm' => ?_) h
      simp only [fireTimer, k] at hm'
      have h1 := mem_clearTimerOpt hm'
      have h2 : tm' ∈ (stopMetronome (handleRecordingChange
          { s with timers := s.timers.erase tm } false)).timers := h1
      have h3 := mem_stopMetronome h2
      rw [handleRecordingChange_timers] at h3
      exact Or.inl (List.mem_of_mem_erase h3)
    · simp only [fireTimer, k]
      simp only [clearTimerOpt_played, stopMetronome_played, handleRecordingChange_played]

theorem stepTimers_playFree : ∀ (fuel : ℕ) {t : ℚ} {s s' : RState},
    playFree s → stepTimers fuel t s = some s' →
    playFree s' ∧ s'.played = s.played := by
  intro fuel
  induction fuel with
  | zero =>
    intro t s s' h hrun
    simp only [stepTimers] at hrun
    cases hp : pickNext s.timers with
    | none =>
      simp only [hp, Option.some.injEq] at hrun
      rw [← hrun]
      exact ⟨h, rfl⟩
    | some tm =>
      simp only [hp] at hrun
      split at hrun
      · exact absurd hrun (by simp)
      · simp only [Option.some.injEq] at hrun
        rw [← hrun]
        exact ⟨h, rfl⟩
  | succ n ih =>
    intro t s s' h hrun
    simp only [stepTimers] at hrun
    cases hp : pickNext s.timers with
    | none =>
      simp only [hp, Option.some.injEq] at hrun
      rw [← hrun]
      exact ⟨h, rfl⟩
    | some tm =>
      simp only [hp] at hrun
      split at hrun
      · have hmem : tm ∈ s.timers := pickNext_mem hp
        have hb : playFree { s with now := qmax s.now tm.fireAt } := h
        obtain ⟨hf1, hf2⟩ := fireTimer_playFree hb hmem
        obtain ⟨ih1, ih2⟩ := ih hf1 hrun
        exact ⟨ih1, by rw [ih2, hf2]⟩
      · simp only [Option.some.injEq] at hrun
        rw [← hrun]
        exact ⟨h, rfl⟩

theorem stopPlayback_isPlaying (s : RState) : (stopPlayback s).isPlaying = false := by
  cases hmi : s.metronomeIntervalId with
  | none =>
    cases hpi : s.playbackIntervalId with
    | none => simp [stopPlayback, stopMetronome, clearTimerOpt, clearTimer, hmi, hpi]
    | some j => simp [stopPlayback, stopMetronome, clearTimerOpt, clearTimer, hmi, hpi]
  | some i =>
    cases hpi : s.playbackIntervalId with
    | none => simp [stopPlayback, stopMetronome, clearTimerOpt, clearTimer, hmi, hpi]
    | some j => simp [stopPlayback, stopMetronome, clearTimerOpt, clearTimer, hmi, hpi]

theorem stopPlayback_playbackPosition (s : RState) :
    (stopPlayback s).playbackPosition = 0 := by
  cases hmi : s.metronomeIntervalId with
  | none =>
    cases hpi : s.playbackIntervalId with
    | none => simp [stopPlayback, stopMetronome, clearTimerOpt, clearTimer, hmi, hpi]
    | some j => simp [stopPlayback, stopMetronome, clearTimerOpt, clearTimer, hmi, hpi]
  | some i =>
    cases hpi : s.playbackIntervalId with
    | none => simp [stopPlayback, stopMetronome, clearTimerOpt, clearTimer, hmi, hpi]
    | some j => simp [stopPlayback, stopMetronome, clearTimerOpt, clearTimer, hmi, hpi]

theorem stopPlayback_metronomeIntervalId (s : RState) :
    (stopPlayback s).metronomeIntervalId = none := by
  cases hmi : s.metronomeIntervalId with
  | none =>
    cases hpi : s.playbackIntervalId with
    | none => simp [stopPlayback, stopMetronome, clearTimerOpt, clearTimer, hmi, hpi]
    | some j => simp [stopPlayback, stopMetronome, clearTimerOpt, clearTimer, hmi, hpi]
  | some i =>
    cases hpi : s.playbackIntervalId with
    | none => simp [stopPlayback, stopMetronome, clearTimerOpt, clearTimer, hmi, hpi]
    | some j => simp [stopPlayback, stopMetronome, clearTimerOpt, clearTimer, hmi, hpi]

/-- C5: stopping playback mid-loop (no loop-restart timeout pending, and the
pending playback timers are those registered in the component's own handle
collections) cancels every not-yet-fired trigger of the current iteration,
the position-update interval and the metronome, and resets the displayed
position to the loop start; afterwards, with no further user command, no
timer run can ever extend the played log, so no playPad invocation occurs
after the stop command returns. -/
theorem stopPlayback_cancels_iteration (s : RState)
    (hp : s.isPlaying = true)
    (hh : ∀ tm ∈ s.timers, tm.kind.isHit = true → tm.id ∈ s.scheduledHits)
    (hpoll : ∀ tm ∈ s.timers, tm.kind.isPlaybackPoll = true →
      s.playbackIntervalId = some tm.id)
    (hmet : ∀ tm ∈ s.timers, tm.kind.isMetroTick = true →
      s.metronomeIntervalId = some tm.id)
    (hlr : ∀ tm ∈ s.timers, TimerKind.isLoopRestartKind tm.kind = false) :
    (applyCmd Cmd.playStop s).isPlaying = false ∧
      (applyCmd Cmd.playStop s).playbackPosition = 0 ∧
      (applyCmd Cmd.playStop s).metronomeIntervalId = none ∧
      (∀ tm ∈ (applyCmd Cmd.playStop s).timers,
        tm.kind.isHit = false ∧ tm.kind.isPlaybackPoll = false ∧
          tm.kind.isMetroTick = false ∧ TimerKind.isLoopRestartKind tm.kind = false) ∧
      (∀ fuel t s'', stepTimers fuel t (applyCmd Cmd.playStop s) = some s'' →
        s''.played = (applyCmd Cmd.playStop s).played) := by
  have hcmd : applyCmd Cmd.playStop s = stopPlayback s := by
    simp [applyCmd, handlePlayStop, hp]
  rw [hcmd]
  have hkinds : ∀ tm ∈ (stopPlayback s).timers,
      tm.kind.isHit = false ∧ tm.kind.isPlaybackPoll = false ∧
        tm.kind.isMetroTick = false ∧ TimerKind.isLoopRestartKind tm.kind = false := by
    intro tm hm
    obtain ⟨hmem, hm1, hp1, hs1⟩ := mem_stopPlayback_iff.mp hm
    refine ⟨?_, ?_, ?_, hlr tm hmem⟩
    · cases hb : tm.kind.isHit with
      | false => rfl
      | true => exact absurd (hh tm hmem hb) hs1
    · cases hb : tm.kind.isPlaybackPoll with
      | false => rfl
      | true => exact absurd rfl (hp1 tm.id (hpoll tm hmem hb))
    · cases hb : tm.kind.isMetroTick with
      | false => rfl
      | true => exact absurd rfl (hm1 tm.id (hmet tm hmem hb))
  refine ⟨stopPlayback_isPlaying s, stopPlayback_playbackPosition s,
    stopPlayback_metronomeIntervalId s, hkinds, ?_⟩
  intro fuel t s'' hrun
  have hfree : playFree (stopPlayback s) := by
    intro tm hm
    obtain ⟨h1, h2, h3, h4⟩ := hkinds tm hm
    exact ⟨h1, h2, h4⟩
  exact (stepTimers_playFree fuel hfree hrun).2

/-
Reachability invariant for the hit-window claim: while recording, the
anonymous auto-stop timeout scheduled by startActualRecording is still
pending at exactly recordingStart + duration, and every captured hit is
stamped no later than the current clock.  The id-freshness and
handle-consistency clauses make the cancellation paths provably unable to
remove that auto-stop timer.
-/

def InvA (s : RState) : Prop :=
  ∀ rec, s.recording = some rec → ∀ h ∈ rec.hits, h.timestamp < rec.duration

def hasAutoStop (s : RState) : Prop :=
  ∃ tm ∈ s.timers, tm.kind = TimerKind.recordingAutoStop ∧
    tm.fireAt = s.samplerRecStart + calculateDuration (s.bars : ℚ) (s.bpm : ℚ)

def InvB (s : RState) : Prop :=
  ∀ h ∈ s.recordedHits, s.samplerRecStart + h.timestamp ≤ s.now

def InvE (s : RState) : Prop :=
  (∀ tm ∈ s.timers, tm.id < s.nextId) ∧
  (∀ i ∈ s.recordingIntervalId, i < s.nextId) ∧
  (∀ i ∈ s.metronomeIntervalId, i < s.nextId) ∧
  (∀ i ∈ s.countInTimeoutId, i < s.nextId) ∧
  (∀ i ∈ s.playbackIntervalId, i < s.nextId) ∧
  (∀ i ∈ s.scheduledHits, i < s.nextId) ∧
  (∀ tm ∈ s.timers,
    (s.countInTimeoutId = some tm.id → ∃ b, tm.kind = TimerKind.countInComplete b) ∧
    (s.recordingIntervalId = some tm.id → ∃ d, tm.kind = TimerKind.recordingPosUpdate d) ∧
    (s.metronomeIntervalId = some tm.id → ∃ n bd, tm.kind = TimerKind.metronomeTick n bd) ∧
    (s.playbackIntervalId = some tm.id → ∃ d, tm.kind = TimerKind.playbackPosUpdate d) ∧
    (tm.id ∈ s.scheduledHits → ∃ p, tm.kind = TimerKind.hitTrigger p))

def Inv (s : RState) : Prop :=
  InvA s ∧ (s.isRecording = true → InvB s ∧ hasAutoStop s) ∧ InvE s

theorem invE_clearTimer {s : RState} (i : ℕ) (h : InvE s) : InvE (clearTimer s i) := by
  obtain ⟨e1, e2, e3, e4, e5, e6, e7⟩ := h
  refine ⟨?_, e2, e3, e4, e5, e6, ?_⟩
  · intro tm hm
    exact e1 tm (mem_clearTimer.mp hm).1
  · intro tm hm
    exact e7 tm (mem_clearTimer.mp hm).1

theorem invE_stopMetronome {s : RState} (h : InvE s) : InvE (stopMetronome s) := by
  unfold stopMetronome
  cases hmi : s.metronomeIntervalId with
  | none => exact h
  | some i =>
    obtain ⟨e1, e2, e3, e4, e5, e6, e7⟩ := h
    refine ⟨?_, e2, ?_, e4, e5, e6, ?_⟩
    · intro tm hm
      exact e1 tm (mem_clearTimer.mp hm).1
    · intro j hj
      exact absurd hj (by simp)
    · intro tm hm
      obtain ⟨hmem, hne⟩ := mem_clearTimer.mp hm
      obtain ⟨c1, c2, c3, c4, c5⟩ := e7 tm hmem
      refine ⟨c1, c2, ?_, c4, c5⟩
      intro hc
      exact absurd hc (by simp)

theorem invE_schedule {s : RState} (d : ℚ) (k : TimerKind) (h : InvE s) :
    InvE (schedule s d k).1 := by
  obtain ⟨e1, e2, e3, e4, e5, e6, e7⟩ := h
  refine ⟨?_, ?_, ?_, ?_, ?_, ?_, ?_⟩
  · intro tm hm
    rcases List.mem_append.mp hm with hm | hm
    · exact Nat.lt_succ_of_lt (e1 tm hm)
    · simp only [List.mem_singleton] at hm
      rw [hm]
      exact Nat.lt_succ_self _
  · intro i hi
    exact Nat.lt_succ_of_lt (e2 i hi)
  · intro i hi
    exact Nat.lt_succ_of_lt (e3 i hi)
  · intro i hi
    exact Nat.lt_succ_of_lt (e4 i hi)
  · intro i hi
    exact Nat.lt_succ_of_lt (e5 i hi)
  · intro i hi
    exact Nat.lt_succ_of_lt (e6 i hi)
  · intro tm hm
    rcases List.mem_append.mp hm with hm | hm
    · exact e7 tm hm
    · simp only [List.mem_singleton] at hm
      rw [hm]
      refine ⟨?_, ?_, ?_, ?_, ?_⟩
      · intro hc
        exact absurd (e4 s.nextId (Option.mem_def.mpr hc)) (lt_irrefl _)
      · intro hc
        exact absurd (e2 s.nextId (Option.mem_def.mpr hc)) (lt_irrefl _)
      · intro hc
        exact absurd (e3 s.nextId (Option.mem_def.mpr hc)) (lt_irrefl _)
      · intro hc
        exact absurd (e5 s.nextId (Option.mem_def.mpr hc)) (lt_irrefl _)
      · intro hc
        exact absurd (e6 s.nextId hc) (lt_irrefl _)

theorem invE_playMetronomeClick {s : RState} (b : Bool) (h : InvE s) :
    InvE (playMetronomeClick s b) := by
  unfold playMetronomeClick
  split
  · exact h
  · exact h

theorem invE_playAudio {s : RState} (p : ℕ) (h : InvE s) : InvE (playAudio s p) := by
  unfold playAudio
  dsimp only
  split
  · exact h
  · exact h

theorem invE_handleRecordingChange {s : RState} (b : Bool) (h : InvE s) :
    InvE (handleRecordingChange s b) := by
  unfold handleRecordingChange
  split
  · exact h
  · exact h

theorem invE_schedule_metRef {s : RState} (d bd : ℚ) (n : ℕ) (h : InvE s) :
    InvE { (schedule s d (TimerKind.metronomeTick n bd)).1 with
        metronomeIntervalId := some (schedule s d (TimerKind.metronomeTick n bd)).2 } := by
  obtain ⟨e1, e2, e3, e4, e5, e6, e7⟩ := h
  refine ⟨?_, ?_, ?_, ?_, ?_, ?_, ?_⟩
  · intro tm hm
    rcases List.mem_append.mp hm with hm | hm
    · exact Nat.lt_succ_of_lt (e1 tm hm)
    · simp only [List.mem_singleton] at hm
      rw [hm]
      exact Nat.lt_succ_self _
  · intro i hi
    exact Nat.lt_succ_of_lt (e2 i hi)
  · intro i hi
    simp only [Option.mem_def, Option.some.injEq] at hi
    rw [← hi]
    exact Nat.lt_succ_self _
  · intro i hi
    exact Nat.lt_succ_of_lt (e4 i hi)
  · intro i hi
    exact Nat.lt_succ_of_lt (e5 i hi)
  · intro i hi
    exact Nat.lt_succ_of_lt (e6 i hi)
  · intro tm hm
    rcases List.mem_append.mp hm with hm | hm
    · obtain ⟨c1, c2, c3, c4, c5⟩ := e7 tm hm
      refine ⟨c1, c2, ?_, c4, c5⟩
      intro hc
      simp only [Option.some.injEq] at hc
      exact absurd (hc ▸ e1 tm hm) (lt_irrefl _)
    · simp only [List.mem_singleton] at hm
      rw [hm]
      refine ⟨?_, ?_, ?_, ?_, ?_⟩
      · intro hc
        exact absurd (e4 s.nextId (Option.mem_def.mpr hc)) (lt_irrefl _)
      · intro hc
        exact absurd (e2 s.nextId (Option.mem_def.mpr hc)) (lt_irrefl _)
      · intro hc
        exact ⟨n, bd, rfl⟩
      · intro hc
        exact absurd (e5 s.nextId (Option.mem_def.mpr hc)) (lt_irrefl _)
      · intro hc
        exact absurd (e6 s.nextId hc) (lt_irrefl _)

theorem invE_startMetronome {s : RState} (h : InvE s) : InvE (startMetronome s) := by
  unfold startMetronome
  split
  · exact invE_schedule_metRef _ _ _ (invE_playMetronomeClick true h)
  · exact h

theorem invE_schedule_recRef {s : RState} (d dur : ℚ) (h : InvE s) :
    InvE { (schedule s d (TimerKind.recordingPosUpdate dur)).1 with
        recordingIntervalId := some (schedule s d (TimerKind.recordingPosUpdate dur)).2 } := by
  obtain ⟨e1, e2, e3, e4, e5, e6, e7⟩ := h
  refine ⟨?_, ?_, ?_, ?_, ?_, ?_, ?_⟩
  · intro tm hm
    rcases List.mem_append.mp hm with hm | hm
    · exact Nat.lt_succ_of_lt (e1 tm hm)
    · simp only [List.mem_singleton] at hm
      rw [hm]
      exact Nat.lt_succ_self _
  · intro i hi
    simp only [Option.mem_def, Option.some.injEq] at hi
    rw [← hi]
    exact Nat.lt_succ_self _
  · intro i hi
    exact Nat.lt_succ_of_lt (e3 i hi)
  · intro i hi
    exact Nat.lt_succ_of_lt (e4 i hi)
  · intro i hi
    exact Nat.lt_succ_of_lt (e5 i hi)
  · intro i hi
    exact Nat.lt_succ_of_lt (e6 i hi)
  · intro tm hm
    rcases List.mem_append.mp hm with hm | hm
    · obtain ⟨c1, c2, c3, c4, c5⟩ := e7 tm hm
      refine ⟨c1, ?_, c3, c4, c5⟩
      intro hc
      simp only [Option.some.injEq] at hc
      exact absurd (hc ▸ e1 tm hm) (lt_irrefl _)
    · simp only [List.mem_singleton] at hm
      rw [hm]
      refine ⟨?_, ?_, ?_, ?_, ?_⟩
      · intro hc
        exact absurd (e4 s.nextId (Option.mem_def.mpr hc)) (lt_irrefl _)
      · intro hc
        exact ⟨dur, rfl⟩
      · intro hc
        exact absurd (e3 s.nextId (Option.mem_def.mpr hc)) (lt_irrefl _)
      · intro hc
        exact absurd (e5 s.nextId (Option.mem_def.mpr hc)) (lt_irrefl _)
      · intro hc
        exact absurd (e6 s.nextId hc) (lt_irrefl _)

theorem invE_startActualRecording {s : RState} (h : InvE s) :
    InvE (startActualRecording s) := by
  unfold startActualRecording
  dsimp only
  split
  · exact invE_schedule _ _ (invE_schedule_recRef _ _
      (invE_startMetronome (invE_handleRecordingChange true h)))
  · exact invE_schedule _ _ (invE_schedule_recRef _ _
      (invE_handleRecordingChange true h))

theorem invE_schedule_pollRef {s : RState} (d dur : ℚ) (h : InvE s) :
    InvE { (schedule s d (TimerKind.playbackPosUpdate dur)).1 with
        playbackIntervalId := some (schedule s d (TimerKind.playbackPosUpdate dur)).2 } := by
  obtain ⟨e1, e2, e3, e4, e5, e6, e7⟩ := h
  refine ⟨?_, ?_, ?_, ?_, ?_, ?_, ?_⟩
  · intro tm hm
    rcases List.mem_append.mp hm with hm | hm
    · exact Nat.lt_succ_of_lt (e1 tm hm)
    · simp only [List.mem_singleton] at hm
      rw [hm]
      exact Nat.lt_succ_self _
  · intro i hi
    exact Nat.lt_succ_of_lt (e2 i hi)
  · intro i hi
    exact Nat.lt_succ_of_lt (e3 i hi)
  · intro i hi
    exact Nat.lt_succ_of_lt (e4 i hi)
  · intro i hi
    simp only [Option.mem_def, Option.some.injEq] at hi
    rw [← hi]
    exact Nat.lt_succ_self _
  · intro i hi
    exact Nat.lt_succ_of_lt (e6 i hi)
  · intro tm hm
    rcases List.mem_append.mp hm with hm | hm
    · obtain ⟨c1, c2, c3, c4, c5⟩ := e7 tm hm
      refine ⟨c1, c2, c3, ?_, c5⟩
      intro hc
      simp only [Option.some.injEq] at hc
      exact absurd (hc ▸ e1 tm hm) (lt_irrefl _)
    · simp only [List.mem_singleton] at hm
      rw [hm]
      refine ⟨?_, ?_, ?_, ?_, ?_⟩
      · intro hc
        exact absurd (e4 s.nextId (Option.mem_def.mpr hc)) (lt_irrefl _)
      · intro hc
        exact absurd (e2 s.nextId (Option.mem_def.mpr hc)) (lt_irrefl _)
      · intro hc
        exact absurd (e3 s.nextId (Option.mem_def.mpr hc)) (lt_irrefl _)
      · intro hc
        exact ⟨dur, rfl⟩
      · intro hc
        exact absurd (e6 s.nextId hc) (lt_irrefl _)

theorem invE_schedule_ctRef {s : RState} (d : ℚ) (b : ℕ) (h : InvE s) :
    InvE { (schedule s d (TimerKind.countInComplete b)).1 with
        countInTimeoutId := some (schedule s d (TimerKind.countInComplete b)).2 } := by
  obtain ⟨e1, e2, e3, e4, e5, e6, e7⟩ := h
  refine ⟨?_, ?_, ?_, ?_, ?_, ?_, ?_⟩
  · intro tm hm
    rcases List.mem_append.mp hm with hm | hm
    · exact Nat.lt_succ_of_lt (e1 tm hm)
    · simp only [List.mem_singleton] at hm
      rw [hm]
      exact Nat.lt_succ_self _
  · intro i hi
    exact Nat.lt_succ_of_lt (e2 i hi)
  · intro i hi
    exact Nat.lt_succ_of_lt (e3 i hi)
  · intro i hi
    simp only [Option.mem_def, Option.some.injEq] at hi
    rw [← hi]
    exact Nat.lt_succ_self _
  · intro i hi
    exact Nat.lt_succ_of_lt (e5 i hi)
  · intro i hi
    exact Nat.lt_succ_of_lt (e6 i hi)
  · intro tm hm
    rcases List.mem_append.mp hm with hm | hm
    · obtain ⟨c1, c2, c3, c4, c5⟩ := e7 tm hm
      refine ⟨?_, c2, c3, c4, c5⟩
      intro hc
      simp only [Option.some.injEq] at hc
      exact absurd (hc ▸ e1 tm hm) (lt_irrefl _)
    · simp only [List.mem_singleton] at hm
      rw [hm]
      refine ⟨?_, ?_, ?_, ?_, ?_⟩
      · intro hc
        exact ⟨b, rfl⟩
      · intro hc
        exact absurd (e2 s.nextId (Option.mem_def.mpr hc)) (lt_irrefl _)
      · intro hc
        exact absurd (e3 s.nextId (Option.mem_def.mpr hc)) (lt_irrefl _)
      · intro hc
        exact absurd (e5 s.nextId (Option.mem_def.mpr hc)) (lt_irrefl _)
      · intro hc
        exact absurd (e6 s.nextId hc) (lt_irrefl _)

theorem invE_hitStep {s : RState} (d : ℚ) (pad : ℕ) (h : InvE s) :
    InvE { (schedule s d (TimerKind.hitTrigger pad)).1 with
        scheduledHits := (schedule s d (TimerKind.hitTrigger pad)).1.scheduledHits ++
          [(schedule s d (TimerKind.hitTrigger pad)).2] } := by
  obtain ⟨e1, e2, e3, e4, e5, e6, e7⟩ := h
  refine ⟨?_, ?_, ?_, ?_, ?_, ?_, ?_⟩
  · intro tm hm
    rcases List.mem_append.mp hm with hm | hm
    · exact Nat.lt_succ_of_lt (e1 tm hm)
    · simp only [List.mem_singleton] at hm
      rw [hm]
      exact Nat.lt_succ_self _
  · intro i hi
    exact Nat.lt_succ_of_lt (e2 i hi)
  · intro i hi
    exact Nat.lt_succ_of_lt (e3 i hi)
  · intro i hi
    exact Nat.lt_succ_of_lt (e4 i hi)
  · intro i hi
    exact Nat.lt_succ_of_lt (e5 i hi)
  · intro i hi
    rcases List.mem_append.mp hi with hi | hi
    · exact Nat.lt_succ_of_lt (e6 i hi)
    · simp only [List.mem_singleton] at hi
      rw [hi]
      exact Nat.lt_succ_self _
  · intro tm hm
    rcases List.mem_append.mp hm with hm | hm
    · obtain ⟨c1, c2, c3, c4, c5⟩ := e7 tm hm
      refine ⟨c1, c2, c3, c4, ?_⟩
      intro hc
      rcases List.mem_append.mp hc with hc | hc
      · exact c5 hc
      · simp only [List.mem_singleton] at hc
        exact absurd (hc ▸ e1 tm hm) (lt_irrefl _)
    · simp only [List.mem_singleton] at hm
      rw [hm]
      refine ⟨?_, ?_, ?_, ?_, ?_⟩
      · intro hc
        exact absurd (e4 s.nextId (Option.mem_def.mpr hc)) (lt_irrefl _)
      · intro hc
        exact absurd (e2 s.nextId (Option.mem_def.mpr hc)) (lt_irrefl _)
      · intro hc
        exact absurd (e3 s.nextId (Option.mem_def.mpr hc)) (lt_irrefl _)
      · intro hc
        exact absurd (e5 s.nextId (Option.mem_def.mpr hc)) (lt_irrefl _)
      · intro hc
        exact ⟨pad, rfl⟩

theorem invE_scheduleHitList (hits : List RecordedHit) :
    ∀ {s : RState}, InvE s → InvE (scheduleHitList s hits) := by
  induction hits with
  | nil => intro s h; exact h
  | cons hd tl ih =>
    intro s h
    exact ih (invE_hitStep _ hd.padId h)

/-
Frame lemmas: the fields the hit-window invariant reads are untouched by
the operations that do not logically concern them.
-/

theorem playMetronomeClick_frame (s : RState) (b : Bool) :
    (playMetronomeClick s b).now = s.now ∧
    (playMetronomeClick s b).isRecording = s.isRecording ∧
    (playMetronomeClick s b).recordedHits = s.recordedHits ∧
    (playMetronomeClick s b).samplerRecStart = s.samplerRecStart ∧
    (playMetronomeClick s b).bpm = s.bpm ∧
    (playMetronomeClick s b).bars = s.bars ∧
    (playMetronomeClick s b).recording = s.recording ∧
    (playMetronomeClick s b).isCountingIn = s.isCountingIn ∧
    (playMetronomeClick s b).countInTimeoutId = s.countInTimeoutId := by
  unfold playMetronomeClick
  split <;> simp

theorem stopMetronome_frame (s : RState) :
    (stopMetronome s).now = s.now ∧
    (stopMetronome s).isRecording = s.isRecording ∧
    (stopMetronome s).recordedHits = s.recordedHits ∧
    (stopMetronome s).samplerRecStart = s.samplerRecStart ∧
    (stopMetronome s).bpm = s.bpm ∧
    (stopMetronome s).bars = s.bars ∧
    (stopMetronome s).recording = s.recording ∧
    (stopMetronome s).isCountingIn = s.isCountingIn ∧
    (stopMetronome s).countInTimeoutId = s.countInTimeoutId := by
  unfold stopMetronome
  cases s.metronomeIntervalId <;> simp [clearTimer]

theorem startMetronome_frame (s : RState) :
    (startMetronome s).now = s.now ∧
    (startMetronome s).isRecording = s.isRecording ∧
    (startMetronome s).recordedHits = s.recordedHits ∧
    (startMetronome s).samplerRecStart = s.samplerRecStart ∧
    (startMetronome s).bpm = s.bpm ∧
    (startMetronome s).bars = s.bars ∧
    (startMetronome s).recording = s.recording ∧
    (startMetronome s).isCountingIn = s.isCountingIn ∧
    (startMetronome s).countInTimeoutId = s.countInTimeoutId := by
  unfold startMetronome
  split
  · rename_i h
    simp [schedule, playMetronomeClick, h]
  · simp

theorem scheduleHitList_frame (hits : List RecordedHit) :
    ∀ {s : RState},
      (scheduleHitList s hits).now = s.now ∧
      (scheduleHitList s hits).isRecording = s.isRecording ∧
      (scheduleHitList s hits).recordedHits = s.recordedHits ∧
      (scheduleHitList s hits).samplerRecStart = s.samplerRecStart ∧
      (scheduleHitList s hits).bpm = s.bpm ∧
      (scheduleHitList s hits).bars = s.bars ∧
      (scheduleHitList s hits).recording = s.recording ∧
      (scheduleHitList s hits).isCountingIn = s.isCountingIn ∧
      (scheduleHitList s hits).countInTimeoutId = s.countInTimeoutId := by
  induction hits with
  | nil => intro s; exact ⟨rfl, rfl, rfl, rfl, rfl, rfl, rfl, rfl, rfl⟩
  | cons hd tl ih => intro s; exact ih

theorem stopPlayback_frame (s : RState) :
    (stopPlayback s).now = s.now ∧
    (stopPlayback s).nextId = s.nextId ∧
    (stopPlayback s).isRecording = s.isRecording ∧
    (stopPlayback s).recordedHits = s.recordedHits ∧
    (stopPlayback s).samplerRecStart = s.samplerRecStart ∧
    (stopPlayback s).bpm = s.bpm ∧
    (stopPlayback s).bars = s.bars ∧
    (stopPlayback s).recording = s.recording ∧
    (stopPlayback s).isCountingIn = s.isCountingIn ∧
    (stopPlayback s).countInTimeoutId = s.countInTimeoutId ∧
    (stopPlayback s).recordingIntervalId = s.recordingIntervalId ∧
    (stopPlayback s).scheduledHits = [] ∧
    (stopPlayback s).playbackIntervalId = none := by
  cases hmi : s.metronomeIntervalId with
  | none =>
    cases hpi : s.playbackIntervalId with
    | none => simp [stopPlayback, stopMetronome, clearTimerOpt, clearTimer, hmi, hpi]
    | some j => simp [stopPlayback, stopMetronome, clearTimerOpt, clearTimer, hmi, hpi]
  | some i =>
    cases hpi : s.playbackIntervalId with
    | none => simp [stopPlayback, stopMetronome, clearTimerOpt, clearTimer, hmi, hpi]
    | some j => simp [stopPlayback, stopMetronome, clearTimerOpt, clearTimer, hmi, hpi]

theorem startActualRecording_frame (s : RState) :
    (startActualRecording s).now = s.now ∧
    (startActualRecording s).isRecording = true ∧
    (startActualRecording s).recordedHits = [] ∧
    (startActualRecording s).samplerRecStart = s.now ∧
    (startActualRecording s).bpm = s.bpm ∧
    (startActualRecording s).bars = s.bars ∧
    (startActualRecording s).recording = s.recording ∧
    (startActualRecording s).countInTimeoutId = s.countInTimeoutId := by
  unfold startActualRecording
  dsimp only
  split
  · obtain ⟨m1, m2, m3, m4, m5, m6, m7, m8, m9⟩ := startMetronome_frame _
    simp only [schedule]
    exact ⟨m1, m2, m3, m4, m5, m6, m7, m9⟩
  · exact ⟨rfl, rfl, rfl, rfl, rfl, rfl, rfl, rfl⟩

theorem startPlayback_frame (s : RState) :
    (startPlayback s).now = s.now ∧
    (startPlayback s).isRecording = s.isRecording ∧
    (startPlayback s).recordedHits = s.recordedHits ∧
    (startPlayback s).samplerRecStart = s.samplerRecStart ∧
    (startPlayback s).bpm = s.bpm ∧
    (startPlayback s).bars = s.bars ∧
    (startPlayback s).recording = s.recording ∧
    (startPlayback s).isCountingIn = s.isCountingIn ∧
    (startPlayback s).countInTimeoutId = s.countInTimeoutId := by
  unfold startPlayback
  split
  · exact ⟨rfl, rfl, rfl, rfl, rfl, rfl, rfl, rfl, rfl⟩
  · split
    · exact ⟨rfl, rfl, rfl, rfl, rfl, rfl, rfl, rfl, rfl⟩
    · simp only [schedule]
      split
      · exact ⟨(scheduleHitList_frame _).1.trans (startMetronome_frame _).1,
          (scheduleHitList_frame _).2.1.trans (startMetronome_frame _).2.1,
          (scheduleHitList_frame _).2.2.1.trans (startMetronome_frame _).2.2.1,
          (scheduleHitList_frame _).2.2.2.1.trans (startMetronome_frame _).2.2.2.1,
          (scheduleHitList_frame _).2.2.2.2.1.trans (startMetronome_frame _).2.2.2.2.1,
          (scheduleHitList_frame _).2.2.2.2.2.1.trans (startMetronome_frame _).2.2.2.2.2.1,
          (scheduleHitList_frame _).2.2.2.2.2.2.1.trans
            (startMetronome_frame _).2.2.2.2.2.2.1,
          (scheduleHitList_frame _).2.2.2.2.2.2.2.1.trans
            (startMetronome_frame _).2.2.2.2.2.2.2.1,
          (scheduleHitList_frame _).2.2.2.2.2.2.2.2.trans
            (startMetronome_frame _).2.2.2.2.2.2.2.2⟩
      · exact ⟨(scheduleHitList_frame _).1, (scheduleHitList_frame _).2.1,
          (scheduleHitList_frame _).2.2.1, (scheduleHitList_frame _).2.2.2.1,
          (scheduleHitList_frame _).2.2.2.2.1, (scheduleHitList_frame _).2.2.2.2.2.1,
          (scheduleHitList_frame _).2.2.2.2.2.2.1,
          (scheduleHitList_frame _).2.2.2.2.2.2.2.1,
          (scheduleHitList_frame _).2.2.2.2.2.2.2.2⟩

theorem invB_of_eq {s s' : RState} (hrh : s'.recordedHits = s.recordedHits)
    (hsr : s'.samplerRecStart = s.samplerRecStart) (hnow : s.now ≤ s'.now)
    (h : InvB s) : InvB s' := by
  intro x hx
  rw [hrh] at hx
  rw [hsr]
  exact le_trans (h x hx) hnow

theorem hasAutoStop_of_eq {s s' : RState} (h : hasAutoStop s)
    (hsub : ∀ tm, tm ∈ s.timers → tm.kind = TimerKind.recordingAutoStop →
      tm ∈ s'.timers)
    (hsr : s'.samplerRecStart = s.samplerRecStart) (hbars : s'.bars = s.bars)
    (hbpm : s'.bpm = s.bpm) : hasAutoStop s' := by
  obtain ⟨tm, hm, hk, hf⟩ := h
  refine ⟨tm, hsub tm hm hk, hk, ?_⟩
  rw [hsr, hbars, hbpm]
  exact hf

theorem invE_respawn {s : RState} {tm : Timer} (hm : tm ∈ s.timers) (hE : InvE s)
    (tm' : Timer) (hid : tm'.id = tm.id)
    (hc1 : s.countInTimeoutId = some tm.id → ∃ b, tm'.kind = TimerKind.countInComplete b)
    (hc2 : s.recordingIntervalId = some tm.id → ∃ d, tm'.kind = TimerKind.recordingPosUpdate d)
    (hc3 : s.metronomeIntervalId = some tm.id → ∃ n bd, tm'.kind = TimerKind.metronomeTick n bd)
    (hc4 : s.playbackIntervalId = some tm.id → ∃ d, tm'.kind = TimerKind.playbackPosUpdate d)
    (hc5 : tm.id ∈ s.scheduledHits → ∃ p, tm'.kind = TimerKind.hitTrigger p) :
    InvE { s with timers := s.timers.erase tm ++ [tm'] } := by
  obtain ⟨e1, e2, e3, e4, e5, e6, e7⟩ := hE
  refine ⟨?_, e2, e3, e4, e5, e6, ?_⟩
  · intro x hx
    rcases List.mem_append.mp hx with hx | hx
    · exact e1 x (List.mem_of_mem_erase hx)
    · simp only [List.mem_singleton] at hx
      rw [hx, hid]
      exact e1 tm hm
  · intro x hx
    rcases List.mem_append.mp hx with hx | hx
    · exact e7 x (List.mem_of_mem_erase hx)
    · simp only [List.mem_singleton] at hx
      rw [hx]
      refine ⟨?_, ?_, ?_, ?_, ?_⟩
      · intro hc
        exact hc1 (by rw [← hid]; exact hc)
      · intro hc
        exact hc2 (by rw [← hid]; exact hc)
      · intro hc
        exact hc3 (by rw [← hid]; exact hc)
      · intro hc
        exact hc4 (by rw [← hid]; exact hc)
      · intro hc
        exact hc5 (by rw [← hid]; exact hc)

theorem hasAutoStop_schedule_self {s : RState} (hss : s.samplerRecStart = s.now) :
    hasAutoStop
      (schedule s (calculateDuration (s.bars : ℚ) (s.bpm : ℚ)) TimerKind.recordingAutoStop).1 := by
  refine ⟨(⟨s.nextId, s.now + calculateDuration (s.bars : ℚ) (s.bpm : ℚ), TimerKind.recordingAutoStop⟩ : Timer), ?_, rfl, ?_⟩
  · exact List.mem_append_right _ (List.mem_singleton_self _)
  · show s.now + calculateDuration (s.bars : ℚ) (s.bpm : ℚ) =
      s.samplerRecStart + calculateDuration (s.bars : ℚ) (s.bpm : ℚ)
    rw [hss]

theorem inv_startActualRecording {s : RState} (hA : InvA s) (hE : InvE s) :
    Inv (startActualRecording s) := by
  refine ⟨?_, ?_, invE_startActualRecording hE⟩
  · intro rec hrec
    rw [(startActualRecording_frame s).2.2.2.2.2.2.1] at hrec
    exact hA rec hrec
  · intro _
    constructor
    · intro x hx
      rw [(startActualRecording_frame s).2.2.1] at hx
      exact absurd hx (List.not_mem_nil x)
    · unfold startActualRecording
      dsimp only
      split
      · have hss : (startMetronome { handleRecordingChange s true with
            recStart := (handleRecordingChange s true).now }).samplerRecStart =
            (startMetronome { handleRecordingChange s true with
              recStart := (handleRecordingChange s true).now }).now := by
          rw [(startMetronome_frame _).2.2.2.1, (startMetronome_frame _).1]
          rfl
        exact hasAutoStop_schedule_self hss
      · exact hasAutoStop_schedule_self rfl

theorem mem_schedule_of {s : RState} {d : ℚ} {k : TimerKind} {tm : Timer}
    (h : tm ∈ s.timers) : tm ∈ (schedule s d k).1.timers :=
  List.mem_append_left _ h

theorem mem_startMetronome_of {s : RState} {tm : Timer} (h : tm ∈ s.timers) :
    tm ∈ (startMetronome s).timers := by
  unfold startMetronome
  split
  · refine List.mem_append_left _ ?_
    rw [playMetronomeClick_timers]
    exact h
  · exact h

theorem mem_scheduleHitList_of (hits : List RecordedHit) :
    ∀ {s : RState} {tm : Timer}, tm ∈ s.timers →
      tm ∈ (scheduleHitList s hits).timers := by
  induction hits with
  | nil => intro s tm h; exact h
  | cons hd tl ih =>
    intro s tm h
    exact ih (List.mem_append_left _ h)

theorem mem_startPlayback_of {s : RState} {tm : Timer} (h : tm ∈ s.timers) :
    tm ∈ (startPlayback s).timers := by
  unfold startPlayback
  split
  · exact h
  · split
    · exact h
    · refine List.mem_append_left _ ?_
      refine mem_scheduleHitList_of _ ?_
      split
      · exact mem_startMetronome_of h
      · exact h

theorem invBC_of_eq {s s' : RState}
    (hBC : s.isRecording = true → InvB s ∧ hasAutoStop s)
    (hrec : s'.isRecording = s.isRecording)
    (hrh : s'.recordedHits = s.recordedHits)
    (hsr : s'.samplerRecStart = s.samplerRecStart) (hnow : s'.now = s.now)
    (hbars : s'.bars = s.bars) (hbpm : s'.bpm = s.bpm)
    (hsub : ∀ tm, tm ∈ s.timers → tm.kind = TimerKind.recordingAutoStop →
      tm ∈ s'.timers) :
    s'.isRecording = true → InvB s' ∧ hasAutoStop s' := by
  intro h'
  rw [hrec] at h'
  obtain ⟨hB, hC⟩ := hBC h'
  exact ⟨invB_of_eq hrh hsr (le_of_eq hnow.symm) hB,
    hasAutoStop_of_eq hC hsub hsr hbars hbpm⟩

theorem clearTimerOpt_frame (s : RState) (o : Option ℕ) :
    (clearTimerOpt s o).now = s.now ∧
    (clearTimerOpt s o).isRecording = s.isRecording ∧
    (clearTimerOpt s o).recordedHits = s.recordedHits ∧
    (clearTimerOpt s o).samplerRecStart = s.samplerRecStart ∧
    (clearTimerOpt s o).bpm = s.bpm ∧
    (clearTimerOpt s o).bars = s.bars ∧
    (clearTimerOpt s o).recording = s.recording ∧
    (clearTimerOpt s o).isCountingIn = s.isCountingIn ∧
    (clearTimerOpt s o).countInTimeoutId = s.countInTimeoutId := by
  cases o <;> simp [clearTimerOpt, clearTimer]

theorem playAudio_frame (s : RState) (p : ℕ) :
    (playAudio s p).now = s.now ∧
    (playAudio s p).isRecording = s.isRecording ∧
    (playAudio s p).samplerRecStart = s.samplerRecStart ∧
    (playAudio s p).bpm = s.bpm ∧
    (playAudio s p).bars = s.bars ∧
    (playAudio s p).recording = s.recording ∧
    (playAudio s p).isCountingIn = s.isCountingIn ∧
    (playAudio s p).countInTimeoutId = s.countInTimeoutId ∧
    (playAudio s p).scheduledHits = s.scheduledHits ∧
    (playAudio s p).nextId = s.nextId := by
  unfold playAudio
  dsimp only
  split <;> simp

theorem invB_playAudio {s : RState} (p : ℕ) (hB : InvB s) : InvB (playAudio s p) := by
  unfold playAudio
  dsimp only
  split
  · intro x hx
    rcases List.mem_append.mp hx with hx | hx
    · exact hB x hx
    · simp only [List.mem_singleton] at hx
      rw [hx]
      dsimp only
      exact le_of_eq (by ring)
  · exact hB

theorem invE_clearRecRef {s : RState} (h : InvE s) :
    InvE { clearTimerOpt s s.recordingIntervalId with recordingIntervalId := none } := by
  obtain ⟨e1, e2, e3, e4, e5, e6, e7⟩ := h
  cases hri : s.recordingIntervalId with
  | none =>
    refine ⟨e1, ?_, e3, e4, e5, e6, ?_⟩
    · intro i hi
      exact absurd hi (by simp)
    · intro x hx
      obtain ⟨c1, c2, c3, c4, c5⟩ := e7 x hx
      exact ⟨c1, fun hc => absurd hc (by simp), c3, c4, c5⟩
  | some i =>
    refine ⟨?_, ?_, e3, e4, e5, e6, ?_⟩
    · intro x hx
      exact e1 x (mem_clearTimer.mp hx).1
    · intro j hj
      exact absurd hj (by simp)
    · intro x hx
      obtain ⟨c1, c2, c3, c4, c5⟩ := e7 x (mem_clearTimer.mp hx).1
      exact ⟨c1, fun hc => absurd hc (by simp), c3, c4, c5⟩

theorem invE_clearCtRef {s : RState} (h : InvE s) :
    InvE { clearTimerOpt s s.countInTimeoutId with countInTimeoutId := none } := by
  obtain ⟨e1, e2, e3, e4, e5, e6, e7⟩ := h
  cases hct : s.countInTimeoutId with
  | none =>
    refine ⟨e1, e2, e3, ?_, e5, e6, ?_⟩
    · intro i hi
      exact absurd hi (by simp)
    · intro x hx
      obtain ⟨c1, c2, c3, c4, c5⟩ := e7 x hx
      exact ⟨fun hc => absurd hc (by simp), c2, c3, c4, c5⟩
  | some i =>
    refine ⟨?_, e2, e3, ?_, e5, e6, ?_⟩
    · intro x hx
      exact e1 x (mem_clearTimer.mp hx).1
    · intro j hj
      exact absurd hj (by simp)
    · intro x hx
      obtain ⟨c1, c2, c3, c4, c5⟩ := e7 x (mem_clearTimer.mp hx).1
      exact ⟨fun hc => absurd hc (by simp), c2, c3, c4, c5⟩

theorem invE_stopPlayback {s : RState} (h : InvE s) : InvE (stopPlayback s) := by
  obtain ⟨e1, e2, e3, e4, e5, e6, e7⟩ := h
  obtain ⟨f1, f2, f3, f4, f5, f6, f7, f8, f9, f10, f11, f12, f13⟩ := stopPlayback_frame s
  refine ⟨?_, ?_, ?_, ?_, ?_, ?_, ?_⟩
  · intro x hx
    rw [f2]
    exact e1 x (mem_stopPlayback_iff.mp hx).1
  · intro i hi
    rw [f11] at hi
    rw [f2]
    exact e2 i hi
  · intro i hi
    rw [stopPlayback_metronomeIntervalId] at hi
    exact absurd hi (by simp)
  · intro i hi
    rw [f10] at hi
    rw [f2]
    exact e4 i hi
  · intro i hi
    rw [f13] at hi
    exact absurd hi (by simp)
  · intro i hi
    rw [f12] at hi
    exact absurd hi (by simp)
  · intro x hx
    obtain ⟨hmem, h1, h2, h3⟩ := mem_stopPlayback_iff.mp hx
    obtain ⟨c1, c2, c3, c4, c5⟩ := e7 x hmem
    refine ⟨?_, ?_, ?_, ?_, ?_⟩
    · intro hc
      rw [f10] at hc
      exact c1 hc
    · intro hc
      rw [f11] at hc
      exact c2 hc
    · intro hc
      rw [stopPlayback_metronomeIntervalId] at hc
      exact absurd hc (by simp)
    · intro hc
      rw [f13] at hc
      exact absurd hc (by simp)
    · intro hc
      rw [f12] at hc
      exact absurd hc (List.not_mem_nil _)

theorem invE_resetSched {s : RState} (h : InvE s) :
    InvE { s with isPlaying := true, playStart := s.now, scheduledHits := ([] : List ℕ) } := by
  obtain ⟨e1, e2, e3, e4, e5, e6, e7⟩ := h
  refine ⟨e1, e2, e3, e4, e5, ?_, ?_⟩
  · intro i hi
    exact absurd hi (List.not_mem_nil i)
  · intro x hx
    obtain ⟨c1, c2, c3, c4, c5⟩ := e7 x hx
    exact ⟨c1, c2, c3, c4, fun hc => absurd hc (List.not_mem_nil _)⟩

theorem invE_startPlayback {s : RState} (h : InvE s) : InvE (startPlayback s) := by
  unfold startPlayback
  split
  · exact h
  · split
    · exact h
    · dsimp only
      split
      · exact invE_schedule_pollRef _ _ (invE_scheduleHitList _
          (invE_startMetronome (invE_resetSched h)))
      · exact invE_schedule_pollRef _ _ (invE_scheduleHitList _ (invE_resetSched h))

theorem inv_fireTimer {s : RState} {tm : Timer} (h : Inv s) (hm : tm ∈ s.timers) :
    Inv (fireTimer s tm) := by
  obtain ⟨hA, hBC, hE⟩ := h
  have hEbase : InvE { s with timers := s.timers.erase tm } := by
    obtain ⟨e1, e2, e3, e4, e5, e6, e7⟩ := hE
    exact ⟨fun x hx => e1 x (List.mem_of_mem_erase hx), e2, e3, e4, e5, e6,
      fun x hx => e7 x (List.mem_of_mem_erase hx)⟩
  have e7s := hE.2.2.2.2.2.2
  cases k : tm.kind with
  | metronomeTick n bd =>
    simp only [fireTimer, k]
    refine ⟨?_, ?_, ?_⟩
    · intro rec hrec
      rw [(playMetronomeClick_frame _ _).2.2.2.2.2.2.1] at hrec
      exact hA rec hrec
    · refine invBC_of_eq hBC (playMetronomeClick_frame _ _).2.1
        (playMetronomeClick_frame _ _).2.2.1 (playMetronomeClick_frame _ _).2.2.2.1
        (playMetronomeClick_frame _ _).1
        (playMetronomeClick_frame _ _).2.2.2.2.2.1
        (playMetronomeClick_frame _ _).2.2.2.2.1 ?_
      intro x hx hkx
      have hne : x ≠ tm := fun he => by rw [he, k] at hkx; exact TimerKind.noConfusion hkx
      rw [playMetronomeClick_timers]
      exact List.mem_append_left _ ((List.mem_erase_of_ne hne).mpr hx)
    · refine invE_playMetronomeClick _ (invE_respawn hm hE _ rfl ?_ ?_ ?_ ?_ ?_)
      · intro hc
        obtain ⟨b, hb⟩ := (e7s tm hm).1 hc
        rw [k] at hb
        exact TimerKind.noConfusion hb
      · intro hc
        obtain ⟨d', hb⟩ := (e7s tm hm).2.1 hc
        rw [k] at hb
        exact TimerKind.noConfusion hb
      · intro _
        exact ⟨n + 1, bd, rfl⟩
      · intro hc
        obtain ⟨d', hb⟩ := (e7s tm hm).2.2.2.1 hc
        rw [k] at hb
        exact TimerKind.noConfusion hb
      · intro hc
        obtain ⟨p', hb⟩ := (e7s tm hm).2.2.2.2 hc
        rw [k] at hb
        exact TimerKind.noConfusion hb
  | countInBarAdvance cb cib bd =>
    simp only [fireTimer, k]
    split
    · refine ⟨fun rec hrec => hA rec hrec, ?_, ?_⟩
      · refine invBC_of_eq hBC rfl rfl rfl rfl rfl rfl ?_
        intro x hx hkx
        have hne : x ≠ tm := fun he => by rw [he, k] at hkx; exact TimerKind.noConfusion hkx
        exact List.mem_append_left _ ((List.mem_erase_of_ne hne).mpr hx)
      · refine invE_respawn hm hE _ rfl ?_ ?_ ?_ ?_ ?_
        · intro hc
          obtain ⟨b, hb⟩ := (e7s tm hm).1 hc
          rw [k] at hb
          exact TimerKind.noConfusion hb
        · intro hc
          obtain ⟨d', hb⟩ := (e7s tm hm).2.1 hc
          rw [k] at hb
          exact TimerKind.noConfusion hb
        · intro hc
          obtain ⟨n', bd', hb⟩ := (e7s tm hm).2.2.1 hc
          rw [k] at hb
          exact TimerKind.noConfusion hb
        · intro hc
          obtain ⟨d', hb⟩ := (e7s tm hm).2.2.2.1 hc
          rw [k] at hb
          exact TimerKind.noConfusion hb
        · intro hc
          obtain ⟨p', hb⟩ := (e7s tm hm).2.2.2.2 hc
          rw [k] at hb
          exact TimerKind.noConfusion hb
    · refine ⟨fun rec hrec => hA rec hrec, ?_, hEbase⟩
      refine invBC_of_eq hBC rfl rfl rfl rfl rfl rfl ?_
      intro x hx hkx
      have hne : x ≠ tm := fun he => by rw [he, k] at hkx; exact TimerKind.noConfusion hkx
      exact (List.mem_erase_of_ne hne).mpr hx
  | countInComplete b =>
    simp only [fireTimer, k]
    have hA2 : InvA { clearTimer { s with timers := s.timers.erase tm } b with
        isCountingIn := false } := fun rec hrec => hA rec hrec
    have hE2 : InvE { clearTimer { s with timers := s.timers.erase tm } b with
        isCountingIn := false } := invE_clearTimer b hEbase
    exact inv_startActualRecording hA2 hE2
  | recordingPosUpdate d =>
    simp only [fireTimer, k]
    refine ⟨fun rec hrec => hA rec hrec, ?_, ?_⟩
    · refine invBC_of_eq hBC rfl rfl rfl rfl rfl rfl ?_
      intro x hx hkx
      have hne : x ≠ tm := fun he => by rw [he, k] at hkx; exact TimerKind.noConfusion hkx
      exact List.mem_append_left _ ((List.mem_erase_of_ne hne).mpr hx)
    · refine invE_respawn hm hE _ rfl ?_ ?_ ?_ ?_ ?_
      · intro hc
        obtain ⟨b', hb⟩ := (e7s tm hm).1 hc
        rw [k] at hb
        exact TimerKind.noConfusion hb
      · intro _
        exact ⟨d, rfl⟩
      · intro hc
        obtain ⟨n', bd', hb⟩ := (e7s tm hm).2.2.1 hc
        rw [k] at hb
        exact TimerKind.noConfusion hb
      · intro hc
        obtain ⟨d', hb⟩ := (e7s tm hm).2.2.2.1 hc
        rw [k] at hb
        exact TimerKind.noConfusion hb
      · intro hc
        obtain ⟨p', hb⟩ := (e7s tm hm).2.2.2.2 hc
        rw [k] at hb
        exact TimerKind.noConfusion hb
  | recordingAutoStop =>
    simp only [fireTimer, k]
    refine ⟨?_, ?_, ?_⟩
    · intro rec hrec
      rw [(clearTimerOpt_frame _ _).2.2.2.2.2.2.1,
        (stopMetronome_frame _).2.2.2.2.2.2.1] at hrec
      exact hA rec hrec
    · intro hrec
      rw [(clearTimerOpt_frame _ _).2.1, (stopMetronome_frame _).2.1] at hrec
      exact absurd hrec (by simp [handleRecordingChange])
    · exact invE_clearRecRef (invE_stopMetronome (invE_handleRecordingChange false hEbase))
  | hitTrigger p =>
    simp only [fireTimer, k]
    refine ⟨?_, ?_, ?_⟩
    · intro rec hrec
      rw [(playAudio_frame _ _).2.2.2.2.2.1] at hrec
      exact hA rec hrec
    · intro hrec
      rw [(playAudio_frame _ _).2.1] at hrec
      obtain ⟨hB, hC⟩ := hBC hrec
      constructor
      · have hBb : InvB { s with timers := s.timers.erase tm } := hB
        exact fun x hx => invB_playAudio p hBb x hx
      · refine hasAutoStop_of_eq hC ?_ (playAudio_frame _ _).2.2.1
          (playAudio_frame _ _).2.2.2.2.1 (playAudio_frame _ _).2.2.2.1
        intro x hx hkx
        have hne : x ≠ tm := fun he => by rw [he, k] at hkx; exact TimerKind.noConfusion hkx
        show x ∈ (playAudio { s with timers := s.timers.erase tm } p).timers
        rw [playAudio_timers]
        exact (List.mem_erase_of_ne hne).mpr hx
    · have hE1 : InvE (playAudio { s with timers := s.timers.erase tm } p) :=
        invE_playAudio p hEbase
      obtain ⟨e1, e2, e3, e4, e5, e6, e7⟩ := hE1
      refine ⟨e1, e2, e3, e4, e5, ?_, ?_⟩
      · intro i hi
        exact e6 i (List.mem_filter.mp hi).1
      · intro x hx
        obtain ⟨c1, c2, c3, c4, c5⟩ := e7 x hx
        refine ⟨c1, c2, c3, c4, ?_⟩
        intro hc
        exact c5 (List.mem_filter.mp hc).1
  | playbackPosUpdate d =>
    simp only [fireTimer, k]
    split
    · refine ⟨?_, ?_, ?_⟩
      · intro rec hrec
        have hrec2 : (stopPlayback _).recording = some rec := hrec
        rw [(stopPlayback_frame _).2.2.2.2.2.2.2.1] at hrec2
        exact hA rec hrec2
      · refine invBC_of_eq hBC (stopPlayback_frame _).2.2.1 (stopPlayback_frame _).2.2.2.1
          (stopPlayback_frame _).2.2.2.2.1 (stopPlayback_frame _).1
          (stopPlayback_frame _).2.2.2.2.2.2.1 (stopPlayback_frame _).2.2.2.2.2.1 ?_
        intro x hx hkx
        have hne : x ≠ tm := fun he => by rw [he, k] at hkx; exact TimerKind.noConfusion hkx
        refine List.mem_append_left _ ?_
        refine mem_stopPlayback_iff.mpr ⟨?_, ?_, ?_, ?_⟩
        · exact List.mem_append_left _ ((List.mem_erase_of_ne hne).mpr hx)
        · intro i hi hxi
          obtain ⟨n', bd', hk'⟩ := (e7s x hx).2.2.1 (by rw [hxi]; exact hi)
          rw [hkx] at hk'
          exact TimerKind.noConfusion hk'
        · intro i hi hxi
          obtain ⟨d', hk'⟩ := (e7s x hx).2.2.2.1 (by rw [hxi]; exact hi)
          rw [hkx] at hk'
          exact TimerKind.noConfusion hk'
        · intro hin
          obtain ⟨p', hk'⟩ := (e7s x hx).2.2.2.2 hin
          rw [hkx] at hk'
          exact TimerKind.noConfusion hk'
      · refine invE_schedule _ _ (invE_stopPlayback (invE_respawn hm hE _ rfl ?_ ?_ ?_ ?_ ?_))
        · intro hc
          obtain ⟨b', hb⟩ := (e7s tm hm).1 hc
          rw [k] at hb
          exact TimerKind.noConfusion hb
        · intro hc
          obtain ⟨d', hb⟩ := (e7s tm hm).2.1 hc
          rw [k] at hb
          exact TimerKind.noConfusion hb
        · intro hc
          obtain ⟨n', bd', hb⟩ := (e7s tm hm).2.2.1 hc
          rw [k] at hb
          exact TimerKind.noConfusion hb
        · intro _
          exact ⟨d, rfl⟩
        · intro hc
          obtain ⟨p', hb⟩ := (e7s tm hm).2.2.2.2 hc
          rw [k] at hb
          exact TimerKind.noConfusion hb
    · refine ⟨fun rec hrec => hA rec hrec, ?_, ?_⟩
      · refine invBC_of_eq hBC rfl rfl rfl rfl rfl rfl ?_
        intro x hx hkx
        have hne : x ≠ tm := fun he => by rw [he, k] at hkx; exact TimerKind.noConfusion hkx
        exact List.mem_append_left _ ((List.mem_erase_of_ne hne).mpr hx)
      · refine invE_respawn hm hE _ rfl ?_ ?_ ?_ ?_ ?_
        · intro hc
          obtain ⟨b', hb⟩ := (e7s tm hm).1 hc
          rw [k] at hb
          exact TimerKind.noConfusion hb
        · intro hc
          obtain ⟨d', hb⟩ := (e7s tm hm).2.1 hc
          rw [k] at hb
          exact TimerKind.noConfusion hb
        · intro hc
          obtain ⟨n', bd', hb⟩ := (e7s tm hm).2.2.1 hc
          rw [k] at hb
          exact TimerKind.noConfusion hb
        · intro _
          exact ⟨d, rfl⟩
        · intro hc
          obtain ⟨p', hb⟩ := (e7s tm hm).2.2.2.2 hc
          rw [k] at hb
          exact TimerKind.noConfusion hb
  | loopRestart =>
    simp only [fireTimer, k]
    refine ⟨?_, ?_, ?_⟩
    · intro rec hrec
      rw [(startPlayback_frame _).2.2.2.2.2.2.1] at hrec
      exact hA rec hrec
    · refine invBC_of_eq hBC (startPlayback_frame _).2.1 (startPlayback_frame _).2.2.1
        (startPlayback_frame _).2.2.2.1 (startPlayback_frame _).1
        (startPlayback_frame _).2.2.2.2.2.1 (startPlayback_frame _).2.2.2.2.1 ?_
      intro x hx hkx
      have hne : x ≠ tm := fun he => by rw [he, k] at hkx; exact TimerKind.noConfusion hkx
      exact mem_startPlayback_of ((List.mem_erase_of_ne hne).mpr hx)
    · exact invE_startPlayback hEbase

theorem mem_stopMetronome_of {s : RState} {x : Timer} (hx : x ∈ s.timers)
    (hne : ∀ i, s.metronomeIntervalId = some i → x.id ≠ i) :
    x ∈ (stopMetronome s).timers := by
  unfold stopMetronome
  cases hmi : s.metronomeIntervalId with
  | none => exact hx
  | some i => exact mem_clearTimer.mpr ⟨hx, hne i hmi⟩

theorem mem_clearTimerOpt_of {s : RState} {x : Timer} (o : Option ℕ)
    (hx : x ∈ s.timers) (hne : ∀ i, o = some i → x.id ≠ i) :
    x ∈ (clearTimerOpt s o).timers := by
  cases o with
  | none => exact hx
  | some i => exact mem_clearTimer.mpr ⟨hx, hne i rfl⟩


theorem handleClear_recording (s : RState) : (handleClear s).recording = none :=
  (clearTimerOpt_frame ({ stopMetronome (stopPlayback s) with recording := none, recordingPosition := 0, isCountingIn := false } : RState)
    (stopMetronome (stopPlayback s)).countInTimeoutId).2.2.2.2.2.2.1

theorem handleClear_isRecording (s : RState) :
    (handleClear s).isRecording = false := rfl

theorem recordStopState_frame (s : RState) :
    (recordStopState s).recordedHits = s.recordedHits ∧
    (recordStopState s).bars = s.bars ∧
    (recordStopState s).bpm = s.bpm ∧
    (recordStopState s).now = s.now ∧
    (recordStopState s).samplerRecStart = s.samplerRecStart ∧
    (recordStopState s).isRecording = false := by
  refine ⟨?_, ?_, ?_, ?_, ?_, ?_⟩
  · exact ((clearTimerOpt_frame _ _).2.2.1).trans ((stopMetronome_frame _).2.2.1)
  · exact ((clearTimerOpt_frame _ _).2.2.2.2.2.1).trans
      ((stopMetronome_frame _).2.2.2.2.2.1)
  · exact ((clearTimerOpt_frame _ _).2.2.2.2.1).trans
      ((stopMetronome_frame _).2.2.2.2.1)
  · exact ((clearTimerOpt_frame _ _).1).trans ((stopMetronome_frame _).1)
  · exact ((clearTimerOpt_frame _ _).2.2.2.1).trans ((stopMetronome_frame _).2.2.2.1)
  · exact ((clearTimerOpt_frame _ _).2.1).trans ((stopMetronome_frame _).2.1)

theorem countInState_frame (s : RState) :
    (countInState s).recording = none ∧
    (countInState s).isRecording = s.isRecording ∧
    (countInState s).now = s.now := by
  unfold countInState
  dsimp only [schedule]
  refine ⟨?_, ?_, ?_⟩
  · split
    · exact (startMetronome_frame _).2.2.2.2.2.2.1
    · rfl
  · split
    · exact (startMetronome_frame _).2.1
    · rfl
  · split
    · exact (startMetronome_frame _).1
    · rfl

theorem invE_countInState {s : RState} (h : InvE s) : InvE (countInState s) := by
  unfold countInState
  dsimp only
  refine invE_schedule_ctRef _ _ (invE_schedule _ _ ?_)
  split
  · exact invE_startMetronome h
  · exact h

theorem inv_applyCmd {s : RState} (h : Inv s)
    (hd : ∀ tm ∈ s.timers, s.now < tm.fireAt) (c : Cmd) :
    Inv (applyCmd c s) := by
  obtain ⟨hA, hBC, hE⟩ := h
  have e7s := hE.2.2.2.2.2.2
  cases c with
  | wait => exact ⟨hA, hBC, hE⟩
  | hit p =>
    simp only [applyCmd]
    refine ⟨?_, ?_, invE_playAudio p hE⟩
    · intro rec hrec
      rw [(playAudio_frame _ _).2.2.2.2.2.1] at hrec
      exact hA rec hrec
    · intro hrec
      rw [(playAudio_frame _ _).2.1] at hrec
      obtain ⟨hB, hC⟩ := hBC hrec
      refine ⟨invB_playAudio p hB, ?_⟩
      refine hasAutoStop_of_eq hC ?_ (playAudio_frame _ _).2.2.1
        (playAudio_frame _ _).2.2.2.2.1 (playAudio_frame _ _).2.2.2.1
      intro x hx _
      show x ∈ (playAudio s p).timers
      rw [playAudio_timers]
      exact hx
  | playStop =>
    simp only [applyCmd, handlePlayStop]
    split
    · refine ⟨?_, ?_, invE_stopPlayback hE⟩
      · intro rec hrec
        rw [(stopPlayback_frame _).2.2.2.2.2.2.2.1] at hrec
        exact hA rec hrec
      · refine invBC_of_eq hBC (stopPlayback_frame _).2.2.1 (stopPlayback_frame _).2.2.2.1
          (stopPlayback_frame _).2.2.2.2.1 (stopPlayback_frame _).1
          (stopPlayback_frame _).2.2.2.2.2.2.1 (stopPlayback_frame _).2.2.2.2.2.1 ?_
        intro x hx hkx
        refine mem_stopPlayback_iff.mpr ⟨hx, ?_, ?_, ?_⟩
        · intro i hi hxi
          obtain ⟨n', bd', hk'⟩ := (e7s x hx).2.2.1 (by rw [hxi]; exact hi)
          rw [hkx] at hk'
          exact TimerKind.noConfusion hk'
        · intro i hi hxi
          obtain ⟨d', hk'⟩ := (e7s x hx).2.2.2.1 (by rw [hxi]; exact hi)
          rw [hkx] at hk'
          exact TimerKind.noConfusion hk'
        · intro hin
          obtain ⟨p', hk'⟩ := (e7s x hx).2.2.2.2 hin
          rw [hkx] at hk'
          exact TimerKind.noConfusion hk'
    · refine ⟨?_, ?_, invE_startPlayback hE⟩
      · intro rec hrec
        rw [(startPlayback_frame _).2.2.2.2.2.2.1] at hrec
        exact hA rec hrec
      · refine invBC_of_eq hBC (startPlayback_frame _).2.1 (startPlayback_frame _).2.2.1
          (startPlayback_frame _).2.2.2.1 (startPlayback_frame _).1
          (startPlayback_frame _).2.2.2.2.2.1 (startPlayback_frame _).2.2.2.2.1 ?_
        intro x hx _
        exact mem_startPlayback_of hx
  | clear =>
    simp only [applyCmd]
    refine ⟨?_, ?_, ?_⟩
    · intro rec hrec
      rw [handleClear_recording] at hrec
      exact absurd hrec (by simp)
    · intro hrec2
      rw [handleClear_isRecording] at hrec2
      exact Bool.noConfusion hrec2
    · exact invE_handleRecordingChange false
        (invE_clearCtRef (invE_stopMetronome (invE_stopPlayback hE)))
  | record =>
    simp only [applyCmd, handleRecord]
    split
    · rename_i hcond
      split
      · refine ⟨?_, ?_, ?_⟩
        · intro rec hrec
          rw [(clearTimerOpt_frame _ _).2.2.2.2.2.2.1,
            (stopMetronome_frame _).2.2.2.2.2.2.1] at hrec
          exact hA rec hrec
        · refine invBC_of_eq hBC
            ((clearTimerOpt_frame _ _).2.1.trans (stopMetronome_frame _).2.1)
            ((clearTimerOpt_frame _ _).2.2.1.trans (stopMetronome_frame _).2.2.1)
            ((clearTimerOpt_frame _ _).2.2.2.1.trans (stopMetronome_frame _).2.2.2.1)
            ((clearTimerOpt_frame _ _).1.trans (stopMetronome_frame _).1)
            ((clearTimerOpt_frame _ _).2.2.2.2.2.1.trans
              (stopMetronome_frame _).2.2.2.2.2.1)
            ((clearTimerOpt_frame _ _).2.2.2.2.1.trans (stopMetronome_frame _).2.2.2.2.1)
            ?_
          intro x hx hkx
          refine mem_clearTimerOpt_of _ (mem_stopMetronome_of hx ?_) ?_
          · intro i hi hxi
            obtain ⟨n', bd', hk'⟩ := (e7s x hx).2.2.1 (by rw [hxi]; exact hi)
            rw [hkx] at hk'
            exact TimerKind.noConfusion hk'
          · intro i hi hxi
            rw [(stopMetronome_frame _).2.2.2.2.2.2.2.2] at hi
            obtain ⟨b', hk'⟩ := (e7s x hx).1 (by rw [hxi]; exact hi)
            rw [hkx] at hk'
            exact TimerKind.noConfusion hk'
        · exact invE_clearCtRef (invE_stopMetronome hE)
      · rename_i hci
        have hre : s.isRecording = true := by
          simp only [Bool.or_eq_true] at hcond
          rcases hcond with hx | hx
          · exact hx
          · exact absurd hx hci
        obtain ⟨hB, hC⟩ := hBC hre
        refine ⟨?_, ?_, ?_⟩
        · intro rec hrec2
          have h1 : some (recordStopRecording s) = some rec := hrec2
          have h2 := Option.some.inj h1
          subst h2
          intro x hx
          have hx' : x ∈ (recordStopState s).recordedHits := hx
          rw [(recordStopState_frame s).1] at hx'
          show x.timestamp <
            calculateDuration (((recordStopState s).bars : ℚ))
              (((recordStopState s).bpm : ℚ))
          rw [(recordStopState_frame s).2.1, (recordStopState_frame s).2.2.1]
          obtain ⟨tmw, hmw, hkw, hfw⟩ := hC
          have hlt : s.now <
              s.samplerRecStart + calculateDuration ((s.bars : ℚ)) ((s.bpm : ℚ)) := by
            rw [← hfw]
            exact hd tmw hmw
          have hle := hB x hx'
          linarith
        · intro hrec2
          have h2 : (recordStopState s).isRecording = true := hrec2
          rw [(recordStopState_frame s).2.2.2.2.2] at h2
          exact Bool.noConfusion h2
        · exact invE_clearRecRef (invE_stopMetronome (invE_handleRecordingChange false hE))
    · rename_i hcond
      have hnr : s.isRecording = false := by
        cases hx : s.isRecording
        · rfl
        · exact absurd (by simp [hx]) hcond
      split
      · refine ⟨?_, ?_, ?_⟩
        · intro rec hrec
          have h1 : (countInState s).recording = some rec := hrec
          rw [(countInState_frame s).1] at h1
          exact absurd h1 (by simp)
        · intro hrec2
          have h2 : (countInState s).isRecording = true := hrec2
          rw [(countInState_frame s).2.1, hnr] at h2
          exact Bool.noConfusion h2
        · have h3 : InvE (countInState s) := invE_countInState hE
          exact h3
      · have hA1 : InvA ({ s with recording := none, isPlaying := false, recordingPosition := 0 } : RState) := by
          intro rec hrec
          exact absurd hrec (by simp)
        have hE1 : InvE ({ s with recording := none, isPlaying := false, recordingPosition := 0 } : RState) := hE
        exact inv_startActualRecording hA1 hE1

theorem le_qmax_left (a b : ℚ) : a ≤ qmax a b := by
  unfold qmax
  split
  · assumption
  · exact le_refl a

theorem qmax_eq_right {a b : ℚ} (h : a ≤ b) : qmax a b = b := by
  unfold qmax
  split
  · rfl
  · rename_i hn
    exact absurd h hn

theorem qmax_le {a b c : ℚ} (ha : a ≤ c) (hb : b ≤ c) : qmax a b ≤ c := by
  unfold qmax
  split
  · exact hb
  · exact ha

theorem inv_now_bump {s : RState} {t : ℚ} (h : Inv s) (ht : s.now ≤ t) :
    Inv { s with now := t } := by
  obtain ⟨hA, hBC, hE⟩ := h
  refine ⟨hA, ?_, hE⟩
  intro hrec
  obtain ⟨hB, hC⟩ := hBC hrec
  constructor
  · intro x hx
    exact le_trans (hB x hx) ht
  · obtain ⟨tm, hm, hk, hf⟩ := hC
    exact ⟨tm, hm, hk, hf⟩

theorem handleRecord_now (s : RState) : (handleRecord s).now = s.now := by
  simp only [handleRecord]
  split
  · split
    · exact ((clearTimerOpt_frame _ _).1).trans ((stopMetronome_frame _).1)
    · exact (recordStopState_frame s).2.2.2.1
  · split
    · exact (countInState_frame s).2.2
    · exact (startActualRecording_frame _).1

theorem handlePlayStop_now (s : RState) : (handlePlayStop s).now = s.now := by
  unfold handlePlayStop
  split
  · exact (stopPlayback_frame _).1
  · exact (startPlayback_frame _).1

theorem handleClear_now (s : RState) : (handleClear s).now = s.now :=
  ((clearTimerOpt_frame _ _).1).trans
    (((stopMetronome_frame _).1).trans ((stopPlayback_frame _).1))

theorem applyCmd_now (c : Cmd) (s : RState) : (applyCmd c s).now = s.now := by
  cases c with
  | record => exact handleRecord_now s
  | playStop => exact handlePlayStop_now s
  | clear => exact handleClear_now s
  | hit p => exact (playAudio_frame _ _).1
  | wait => rfl

theorem fireTimer_now (s : RState) (tm : Timer) : (fireTimer s tm).now = s.now := by
  cases k : tm.kind with
  | metronomeTick n bd =>
    simp only [fireTimer, k]
    exact (playMetronomeClick_frame _ _).1
  | countInBarAdvance cb cc bd =>
    simp only [fireTimer, k]
    split
    · rfl
    · rfl
  | countInComplete b =>
    simp only [fireTimer, k]
    exact (startActualRecording_frame _).1
  | recordingPosUpdate d =>
    simp only [fireTimer, k]
  | recordingAutoStop =>
    simp only [fireTimer, k]
    exact ((clearTimerOpt_frame _ _).1).trans ((stopMetronome_frame _).1)
  | hitTrigger p =>
    simp only [fireTimer, k]
    exact (playAudio_frame _ _).1
  | playbackPosUpdate d =>
    simp only [fireTimer, k]
    split
    · exact (stopPlayback_frame _).1
    · rfl
  | loopRestart =>
    simp only [fireTimer, k]
    exact (startPlayback_frame _).1

theorem inv_stepTimers : ∀ (fuel : ℕ) {tEnd : ℚ} {s s' : RState},
    Inv s → s.now ≤ tEnd → stepTimers fuel tEnd s = some s' →
    Inv s' ∧ s'.now = tEnd ∧ (∀ tm ∈ s'.timers, s'.now < tm.fireAt) := by
  intro fuel
  induction fuel with
  | zero =>
    intro tEnd s s' h hle hrun
    simp only [stepTimers] at hrun
    cases hp : pickNext s.timers with
    | none =>
      simp only [hp, Option.some.injEq] at hrun
      rw [← hrun]
      refine ⟨inv_now_bump h (le_qmax_left _ _), qmax_eq_right hle, ?_⟩
      intro x hm
      have h0 : s.timers = [] := pickNext_eq_none hp
      have hm' : x ∈ s.timers := hm
      rw [h0] at hm'
      exact absurd hm' (List.not_mem_nil x)
    | some tm =>
      simp only [hp] at hrun
      split at hrun
      · exact absurd hrun (by simp)
      · rename_i hfa
        simp only [Option.some.injEq] at hrun
        rw [← hrun]
        refine ⟨inv_now_bump h (le_qmax_left _ _), qmax_eq_right hle, ?_⟩
        intro x hm
        have hx : tm.fireAt ≤ x.fireAt := pickNext_min hp x hm
        have h1 : tEnd < tm.fireAt := lt_of_not_le hfa
        show qmax s.now tEnd < x.fireAt
        rw [qmax_eq_right hle]
        exact lt_of_lt_of_le h1 hx
  | succ fuel ih =>
    intro tEnd s s' h hle hrun
    simp only [stepTimers] at hrun
    cases hp : pickNext s.timers with
    | none =>
      simp only [hp, Option.some.injEq] at hrun
      rw [← hrun]
      refine ⟨inv_now_bump h (le_qmax_left _ _), qmax_eq_right hle, ?_⟩
      intro x hm
      have h0 : s.timers = [] := pickNext_eq_none hp
      have hm' : x ∈ s.timers := hm
      rw [h0] at hm'
      exact absurd hm' (List.not_mem_nil x)
    | some tm =>
      simp only [hp] at hrun
      split at hrun
      · rename_i hfa
        have hm : tm ∈ s.timers := pickNext_mem hp
        have h1 : Inv (fireTimer { s with now := qmax s.now tm.fireAt } tm) :=
          inv_fireTimer (inv_now_bump h (le_qmax_left _ _)) hm
        have h2 : (fireTimer { s with now := qmax s.now tm.fireAt } tm).now ≤ tEnd := by
          rw [fireTimer_now]
          exact qmax_le hle hfa
        exact ih h1 h2 hrun
      · rename_i hfa
        simp only [Option.some.injEq] at hrun
        rw [← hrun]
        refine ⟨inv_now_bump h (le_qmax_left _ _), qmax_eq_right hle, ?_⟩
        intro x hm
        have hx : tm.fireAt ≤ x.fireAt := pickNext_min hp x hm
        have h1 : tEnd < tm.fireAt := lt_of_not_le hfa
        show qmax s.now tEnd < x.fireAt
        rw [qmax_eq_right hle]
        exact lt_of_lt_of_le h1 hx

theorem inv_runScenario : ∀ (acts : List (ℚ × Cmd)) (fuel : ℕ) {s s' : RState},
    Inv s → (∀ a ∈ acts, s.now ≤ a.1) →
    acts.Pairwise (fun a b => a.1 ≤ b.1) →
    runScenario fuel acts s = some s' → Inv s' := by
  intro acts
  induction acts with
  | nil =>
    intro fuel s s' h _ _ hrun
    simp only [runScenario, Option.some.injEq] at hrun
    rw [← hrun]
    exact h
  | cons a tl ih =>
    intro fuel s s' h hle hpw hrun
    obtain ⟨t, c⟩ := a
    simp only [runScenario] at hrun
    cases hst : stepTimers fuel t s with
    | none =>
      rw [hst] at hrun
      exact absurd hrun (by simp)
    | some s₁ =>
      rw [hst] at hrun
      obtain ⟨h1, hnow, hdr⟩ :=
        inv_stepTimers fuel h (hle (t, c) (List.mem_cons_self _ _)) hst
      have h2 : Inv (applyCmd c s₁) := inv_applyCmd h1 hdr c
      refine ih fuel h2 ?_ (List.pairwise_cons.mp hpw).2 hrun
      intro x hx
      rw [applyCmd_now, hnow]
      exact (List.pairwise_cons.mp hpw).1 x hx

theorem inv_initState (bpm bars : ℕ) (metro : Bool) (cib : ℕ) :
    Inv (initState bpm bars metro cib) := by
  refine ⟨?_, ?_, ?_⟩
  · intro rec hrec
    exact absurd hrec (by simp [initState])
  · intro hrec
    exact absurd hrec (by simp [initState])
  · refine ⟨?_, ?_, ?_, ?_, ?_, ?_, ?_⟩ <;> intro x hx <;> simp [initState] at hx

/-- C7: every Recording the component materializes satisfies the hit-window
invariant: in any completed run from a fresh mount, every hit contained in
the recording held by the final state has its offset strictly below the
recording's durationMs, so a hit falling past the window boundary is never
included in the Recording's hit list. -/
theorem recording_hits_within_duration (fuel bpm bars : ℕ) (metro : Bool)
    (cib : ℕ) (acts : List (ℚ × Cmd)) (hpos : ∀ a ∈ acts, 0 ≤ a.1)
    (hsorted : acts.Pairwise (fun a b => a.1 ≤ b.1)) (s' : RState)
    (hrun : runScenario fuel acts (initState bpm bars metro cib) = some s')
    (rec : Recording) (hrec : s'.recording = some rec) :
    ∀ h ∈ rec.hits, h.timestamp < rec.duration := by
  have hI : Inv s' :=
    inv_runScenario acts fuel (inv_initState bpm bars metro cib)
      (fun a ha => hpos a ha) hsorted hrun
  exact hI.1 rec hrec

section ConcreteEvaluation

attribute [local semireducible] Rat.add Rat.mul Rat.sub Rat.inv Rat.ofScientific

set_option maxRecDepth 1000000

set_option synthInstance.maxSize 512

/-- C3: for bars in {8,16} and bpm in [60,200] the duration computation
returns exactly bars * 4 * (60000 / bpm) milliseconds, and in particular
calculateDuration 8 120 = 16000. -/
theorem calculateDuration_eq_spec (bars bpm : ℚ)
    (hbars : bars = 8 ∨ bars = 16) (h60 : 60 ≤ bpm) (h200 : bpm ≤ 200) :
    calculateDuration bars bpm = bars * 4 * (60000 / bpm) ∧
      calculateDuration 8 120 = 16000 := by
  have hbpm : bpm ≠ 0 := by positivity
  constructor
  · unfold calculateDuration
    field_simp
    ring
  · norm_num [calculateDuration]

/-- Witness for C3 at bars = 8, bpm = 120. -/
theorem calculateDuration_eq_spec_witness :
    ((8 : ℚ) = 8 ∨ (8 : ℚ) = 16) ∧
      (calculateDuration 8 120 = 8 * 4 * (60000 / 120) ∧
        calculateDuration 8 120 = 16000) :=
  ⟨Or.inl rfl, calculateDuration_eq_spec 8 120 (Or.inl rfl) (by norm_num)
    (by norm_num)⟩

/-- C4: for elapsedMs >= 0 and totalMs > 0 the derived timeline position of
the source (Math.min(elapsed/total, 1) fed to getCurrentBarAndBeat) is
exactly the spec formula: fraction = clamp(elapsedMs/totalMs, 0, 1),
beatIndex = floor(fraction * bars * 4), bar = floor(beatIndex/4) + 1,
beat = (beatIndex mod 4) + 1. -/
theorem getCurrentBarAndBeat_eq_spec (elapsedMs totalMs : ℚ) (bars : ℕ)
    (he : 0 ≤ elapsedMs) (ht : 0 < totalMs) :
    specTimelinePosition elapsedMs totalMs bars =
      (positionOf elapsedMs totalMs,
        getCurrentBarAndBeat bars (positionOf elapsedMs totalMs)) := by
  have hq : 0 ≤ elapsedMs / totalMs := div_nonneg he ht.le
  have hclamp : clamp01 (elapsedMs / totalMs) = positionOf elapsedMs totalMs := by
    unfold clamp01 positionOf qmax
    split_ifs with h
    · have h0 : elapsedMs / totalMs = 0 := le_antisymm h hq
      rw [h0]
    · rfl
  unfold specTimelinePosition getCurrentBarAndBeat
  simp only [hclamp]

/-- Witness for C4 at elapsedMs = 500, totalMs = 1000, bars = 8. -/
theorem getCurrentBarAndBeat_eq_spec_witness :
    ((0 : ℚ) ≤ 500 ∧ (0 : ℚ) < 1000) ∧
      specTimelinePosition 500 1000 8 =
        (positionOf 500 1000, getCurrentBarAndBeat 8 (positionOf 500 1000)) :=
  ⟨⟨by norm_num, by norm_num⟩,
    getCurrentBarAndBeat_eq_spec 500 1000 8 (by norm_num) (by norm_num)⟩

/-- C1, counterexample: with the recording of duration 9600 ms captured in
loopActs (hits at offsets 0 and 500), the first trigger of the first loop
iteration fires at t=2000 and the first trigger of the second iteration at
t=11650, a gap of 9650 ms.  In this model every deferred primitive fires
exactly on time, and the only recurring granularity in the loop machinery
is the 16 ms position poll; the gap exceeds durationMs by 50 ms (the
settling delay), so it is not within one scheduling-granularity window of
durationMs. -/
theorem loop_gap_not_within_granularity :
    (loopRun.map fun s => s.played) =
        some [(0, 0), (500, 1), (2000, 0), (2500, 1), (11650, 0), (12150, 1), (21300, 0)] ∧
      (loopRun.map fun s => s.recording.map fun r => r.duration) = some (some 9600) ∧
      ¬ ((11650 - 2000 : ℚ) ≤ 9600 + 16) := by
  decide

/-- C1, amended: each restart re-anchors loopStart to the clock at the
restart instant (after the run, playbackStartTimeRef holds 21300, the time
of the second restart, not 2000 + 2 * 9600), and the gap between the first
triggers of consecutive iterations is the constant
durationMs + 50 ms settling delay + poll rounding (here 0, as 9600 is a
multiple of the 16 ms poll): both gaps equal 9650, so the per-loop excess
does not accumulate across iterations. -/
theorem loop_gap_eq_duration_plus_settle :
    (loopRun.map fun s => s.played) =
        some [(0, 0), (500, 1), (2000, 0), (2500, 1), (11650, 0), (12150, 1), (21300, 0)] ∧
      (loopRun.map fun s => s.playStart) = some 21300 ∧
      (11650 - 2000 : ℚ) = 9600 + 50 ∧ (21300 - 11650 : ℚ) = 9600 + 50 := by
  decide

/-- C2: evaluation of the failing input.  After the manual stop at t=100
the auto-stop timeout of the first recording cycle is still pending (its id
was never stored, so the stop path cannot cancel it), and it fires at
t=1200 into the second recording cycle started at t=200, ending that cycle
at t=1200 instead of t=1400 (at t=1205 isRecording is already false while
the second cycle's own auto-stop is still pending).  Likewise, clear during
the settling delay leaves the anonymous 50 ms loop-restart timeout pending. -/
theorem stale_timers_survive_stop_paths :
    (staleRunShort.map fun s => countKind s TimerKind.isAutoStop) = some 1 ∧
      (staleRun.map fun s => (s.isRecording, s.now, countKind s TimerKind.isAutoStop)) =
        some (false, 1205, 1) ∧
      (clearSettleRun.map fun s =>
        (s.recording, countKind s TimerKind.isLoopRestartKind)) = some (none, 1) := by
  decide

/-- C8: evaluation of the failing input.  With the metronome enabled and a
one-bar count-in at bpm 120, the handoff from count-in into actual
recording calls startMetronome a second time without stopping the first
interval: after t=2000 two concurrent metronomeTick interval timers are
pending.  The ref holds only the second id, so stopping the recording at
t=2100 clears just one of them: the orphaned interval keeps clicking while
the transport is idle (three clicks in (2100, 3600]). -/
theorem metronome_double_start_on_handoff :
    (handoffRun.map fun s => (countKind s TimerKind.isMetroTick, s.isRecording)) =
        some (2, true) ∧
      (handoffStopRun.map fun s =>
        (countKind s TimerKind.isMetroTick, s.metronomeIntervalId, s.isRecording,
          (s.clicks.filter (fun c => decide (2100 < c.1))).length)) =
        some (1, none, false, 3) := by
  decide

/-- C9: evaluation of the failing input.  Cancelling at t=1000 during a
two-bar count-in at bpm 120 does return the transport to Idle with no
Recording, no pending metronome ticks and no pending count-in-completion
timeout, but the bar-advance interval is stored only in a local variable
and is not cancelled: it is still pending (due at t=2000), and when it
fires it still writes the count-in bar display (countInBar becomes 2 at
t=2000 although the count-in was cancelled at t=1000). -/
theorem countIn_cancel_leaves_barAdvance_pending :
    (cancelRun.map fun s =>
        (s.isCountingIn, s.isRecording, s.recording, countKind s TimerKind.isMetroTick,
          countKind s TimerKind.isBarAdvance, s.timers.map fun tm => tm.fireAt)) =
      some (false, false, none, 0, 1, [2000]) ∧
      (cancelLateRun.map fun s => (s.countInBar, s.isCountingIn)) = some (2, false) := by
  decide

/-- C6, counterexample: from a state that is Playing with a stored
one-hit Recording, a record command is not rejected: handleRecord has no
isPlaying guard, so the transport leaves Playing (isPlaying becomes false),
the stored Recording is discarded, and a new recording cycle starts. -/
theorem record_while_playing_not_rejected :
    (rwpPrefixRun.map fun s => (s.isPlaying, s.recording.isSome)) = some (true, true) ∧
      (rwpRun.map fun s => (s.isPlaying, s.isRecording, s.recording)) =
        some (false, true, none) := by
  decide

/-- C6, amended: a record command while Playing is prevented only by the UI
(the record button is rendered with disabled={isPlaying}); the core
handleRecord itself, invoked while Playing, starts a new recording cycle,
discards the stored Recording, clears the playing flag without running
stopPlayback, and leaves the already scheduled playback trigger and
position-poll timers pending. -/
theorem record_while_playing_starts_recording :
    (rwpRun.map fun s =>
        (s.isRecording, s.recording, countKind s TimerKind.isHit,
          countKind s TimerKind.isPlaybackPoll)) = some (true, none, 1, 1) := by
  decide




/-- Witness for C5: a concrete run that is playing at t=2500 with a pending
hit trigger, playback poll, and metronome interval; the stop command clears
the playing flag, resets the position, and clears the metronome ref. -/
theorem stopPlayback_cancels_iteration_witness :
    stopWitnessState.isPlaying = true ∧
      (applyCmd Cmd.playStop stopWitnessState).isPlaying = false ∧
      (applyCmd Cmd.playStop stopWitnessState).playbackPosition = 0 ∧
      (applyCmd Cmd.playStop stopWitnessState).metronomeIntervalId = none := by
  have h := stopPlayback_cancels_iteration stopWitnessState (by decide) (by decide)
    (by decide) (by decide) (by decide)
  exact ⟨by decide, h.1, h.2.1, h.2.2.1⟩

/-- Witness for C7: the concrete run records exactly one hit, at offset 100
inside the 16000 ms window. -/
theorem recording_hits_within_duration_witness :
    (∀ a ∈ c7Acts, 0 ≤ a.1) ∧ c7Rec.hits ≠ [] ∧
      ∀ h ∈ c7Rec.hits, h.timestamp < c7Rec.duration := by
  have h := recording_hits_within_duration 200 120 8 false 0 c7Acts (by decide)
    (by decide) c7State (by decide) c7Rec (by decide)
  exact ⟨by decide, by decide, h⟩


end ConcreteEvaluation

/-- C10: attempting to start playback with an absent recording or an empty
hit list is a rejected no-op: the play command returns the state unchanged,
so no mode change, no scheduled trigger, and no position-update interval. -/
theorem play_empty_rejected (s : RState) (hp : s.isPlaying = false)
    (h : s.recording = none ∨ ∃ r, s.recording = some r ∧ r.hits = []) :
    applyCmd Cmd.playStop s = s := by
  simp only [applyCmd, handlePlayStop, hp, Bool.false_eq_true, if_false]
  unfold startPlayback
  rcases h with h | ⟨r, hr, hh⟩
  · rw [h]
  · rw [hr]
    simp [hh]

/-- Witness for C10: the play command on the freshly mounted state. -/
theorem play_empty_rejected_witness :
    ((initState 120 8 false 0).isPlaying = false ∧
        (initState 120 8 false 0).recording = none) ∧
      applyCmd Cmd.playStop (initState 120 8 false 0) = initState 120 8 false 0 :=
  ⟨⟨rfl, rfl⟩, play_empty_rejected (initState 120 8 false 0) rfl (Or.inl rfl)⟩

end DrumMachine
